import Mathlib

/-!
# Superman detector: access history and travel-anomaly scoring

A shallow embedding of `api.go`.  The result `(T, error)` of a method of the detector
is a pair of options, so that `(nil, nil)` stays expressible; a run-time panic (nil
pointer dereference) is the outer `none` of `PostIpAccessRequest`.  The sqlite table
`ipaccess` is the list of its rows in insertion order together with the
schedule of storage failures the handle is going to meet.  `float64` is a type
parameter `F`; the library calls on it are fields of `Extern`.
-/

set_option autoImplicit false

namespace SupermanDetector

/-! ## Machine integers -/

/-- Go conversion `int32(x)`: two's-complement wrap into `[-2^31, 2^31)`. -/
def toInt32 (n : Int) : Int :=
  (n + 2147483648) % 4294967296 - 2147483648

/-- Go arithmetic on `int` (64 bits): two's-complement wrap into `[-2^63, 2^63)`. -/
def toInt64 (n : Int) : Int :=
  (n + 9223372036854775808) % 18446744073709551616 - 9223372036854775808

/-- Range of the Go type `int32`. -/
def isInt32 (n : Int) : Prop :=
  -2147483648 ≤ n ∧ n < 2147483648

instance isInt32Decidable (n : Int) : Decidable (isInt32 n) :=
  inferInstanceAs (Decidable (-2147483648 ≤ n ∧ n < 2147483648))

/-! ## Data model (package `supermandetector`) -/

/-- Modelled from the spec: `supermandetector.CurrentGeo`, the GeoPoint
`{latitude: float64, longitude: float64, accuracy_radius: int32}`. -/
structure CurrentGeo (F : Type) where
  Lat : F
  Lon : F
  Radius : Int
deriving DecidableEq, Repr

/-- Modelled from the spec: `supermandetector.IpAccessRequest`, the AccessEvent
`{username: string, timestamp: int64, event_id: string, ip_address: string}`. -/
structure IpAccessRequest where
  Username : String
  Unix_timestamp : Int
  Event_uuid : String
  Ip_address : String
deriving DecidableEq, Repr

/-- Modelled from the spec: `supermandetector.IpAccessRecord`, the AccessRecord
`{username, timestamp, event_id, ip_address, latitude, longitude, accuracy_radius}`. -/
structure IpAccessRecord (F : Type) where
  Username : String
  Unix_timestamp : Int
  Event_uuid : String
  Ip_address : String
  Lat : F
  Lon : F
  Radius : Int
deriving DecidableEq, Repr

/-- Modelled from the spec: `supermandetector.IpAccess`, the NeighborAccess
`{ip_address, implied_speed: int32, latitude, longitude, accuracy_radius, timestamp}`;
`Speed`, `Radius` and `Timestamp` are `int32` fields (api.go:161-165 converts to them). -/
structure IpAccess (F : Type) where
  Ip : String
  Speed : Int
  Lat : F
  Lon : F
  Radius : Int
  Timestamp : Int
deriving DecidableEq, Repr

/-- Modelled from the spec: `supermandetector.IpAccessResponse`, the DetectionResult;
every field is a pointer, `none` is the nil pointer. -/
structure IpAccessResponse (F : Type) where
  CurrentGeo : Option (CurrentGeo F)
  TravelToCurrentGeoSuspicious : Option Bool
  TravelFromCurrentGeoSuspicious : Option Bool
  PrecedingIpAccess : Option (IpAccess F)
  SubsequentIpAccess : Option (IpAccess F)
deriving DecidableEq, Repr

/-- Modelled from the spec: `supermandetector.NewIpAccessResponse()`, a fresh response
with every optional field unset. -/
def NewIpAccessResponse {F : Type} : IpAccessResponse F :=
  { CurrentGeo := none
    TravelToCurrentGeoSuspicious := none
    TravelFromCurrentGeoSuspicious := none
    PrecedingIpAccess := none
    SubsequentIpAccess := none }

/-- Modelled from the spec: `supermandetector.NewCurrentGeo(&CurrentGeo{..})`, the
pointer to the GeoPoint it is given. -/
def NewCurrentGeo {F : Type} (init : CurrentGeo F) : Option (CurrentGeo F) :=
  some init

/-- Modelled from the spec: `supermandetector.NewIpAccessRecord(&IpAccessRecord{..})`,
the AccessRecord it is given. -/
def NewIpAccessRecord {F : Type} (init : IpAccessRecord F) : IpAccessRecord F :=
  init

/-- Modelled from the spec: `supermandetector.NewIpAccess(&IpAccess{..})`, the
pointer to the NeighborAccess it is given. -/
def NewIpAccess {F : Type} (init : IpAccess F) : Option (IpAccess F) :=
  some init

/-- The error value `&rdl.ResourceError{Code, Message}`. -/
structure ResourceError where
  Code : Int
  Message : String
deriving DecidableEq, Repr

/-! ## Collaborators outside the repository -/

/-- The `Location` part of a `geoip2.City`; `AccuracyRadius` is a `uint16`. -/
structure City (F : Type) where
  Latitude : F
  Longitude : F
  AccuracyRadius : Fin 65536

/-- The `*geoip2.Reader`: `City(ip)` on the result of `net.ParseIP` (`none` is the
nil IP), yielding the city or the text of the error. -/
structure GeoReader (F : Type) where
  City : Option (List Nat) → Except String (City F)

/-- The point `haversine.Coord{Lat, Lon}`. -/
structure Coord (F : Type) where
  Lat : F
  Lon : F
deriving DecidableEq, Repr

/-- Library functions the source calls on strings and on `float64`. -/
structure Extern (F : Type) where
  /-- `net.ParseIP`; `none` is the nil IP of an unparseable string. -/
  ParseIP : String → Option (List Nat)
  /-- `haversine.Distance`: the distance in miles and in kilometres. -/
  Distance : Coord F → Coord F → F × F
  /-- The conversion `float64(time)` of an `int`. -/
  float64 : Int → F
  /-- The `float64` quotient `x / y`. -/
  fdiv : F → F → F
  /-- The conversion `int(x)` of a `float64`. -/
  int : F → Int

/-! ## The access-history store -/

/-- The handle `*sql.DB` on the table `ipaccess`: its rows in insertion order, and for
each coming use of the handle, which is the statement of a store function or the
`tx.Commit()` of an insertion whose statement went through, the storage failure it meets
(`some text`, such as `sql: database is closed`) or `none`; past the end of the list the
handle is healthy. -/
structure IpAccessDB (F : Type) where
  rows : List (IpAccessRecord F)
  faults : List (Option String)

/-- The storage failure the next use of the handle meets. -/
def IpAccessDB.nextFault {F : Type} (db : IpAccessDB F) : Option String :=
  match db.faults with
  | [] => none
  | f :: _ => f

/-- The handle after one use of it, rows untouched. -/
def IpAccessDB.step {F : Type} (db : IpAccessDB F) : IpAccessDB F :=
  { db with faults := db.faults.tail }

/-- The detector `SupermanDetectorImpl`. -/
structure SupermanDetectorImpl (F : Type) where
  baseUrl : String
  ipaccessdb : IpAccessDB F
  geodb : GeoReader F
  speedThreshold : Int

/-- `InitIPAccessDB`: a fresh file, the table `ipaccess` created with `event_uuid` as
primary key and emptied; `faults` is what the new handle is going to meet, the schema
statement being its first call.  The result is the handle or the error, never both. -/
def InitIPAccessDB {F : Type} (faults : List (Option String)) :
    Except String (IpAccessDB F) :=
  let db : IpAccessDB F := { rows := [], faults := faults }
  match db.nextFault with
  | some err => .error err
  | none => .ok db.step

/-- `NewSupermanDetectorImpl`, for a GeoLite2 file that opens: `geodb` is the reader
`InitGeoDB` returns then. -/
def NewSupermanDetectorImpl {F : Type} (geodb : GeoReader F)
    (faults : List (Option String)) (baseUrl : String) :
    Option (SupermanDetectorImpl F) × Option String :=
  match InitIPAccessDB faults with
  | .error err => (none, some err)
  | .ok ipaccessdb =>
    (some { baseUrl := baseUrl, ipaccessdb := ipaccessdb, geodb := geodb,
            speedThreshold := 500 }, none)

/-- `IpAccessRequest2CurrentGeo`. -/
def IpAccessRequest2CurrentGeo {F : Type} (ext : Extern F) (impl : SupermanDetectorImpl F)
    (request : IpAccessRequest) : Option (CurrentGeo F) × Option String :=
  let ip := ext.ParseIP request.Ip_address
  match impl.geodb.City ip with
  | .error err => (none, some err)
  | .ok city =>
    (NewCurrentGeo { Lat := city.Latitude, Lon := city.Longitude,
                     Radius := toInt32 (city.AccuracyRadius.val : Int) }, none)

/-- `GenerateIpAccessRecord`; `none` is the panic on a nil `currentGeo`. -/
def GenerateIpAccessRecord {F : Type} (request : IpAccessRequest)
    (currentGeo : Option (CurrentGeo F)) : Option (IpAccessRecord F) :=
  match currentGeo with
  | none => none
  | some geo =>
    some (NewIpAccessRecord
      { Username := request.Username
        Unix_timestamp := request.Unix_timestamp
        Event_uuid := request.Event_uuid
        Ip_address := request.Ip_address
        Lat := geo.Lat
        Lon := geo.Lon
        Radius := geo.Radius })

/-- The text of sqlite's error on a second row with the same primary key. -/
def uniqueConstraintFailed : String :=
  "UNIQUE constraint failed: ipaccess.event_uuid"

/-- `RegisterIpAccessRecord`: `insert into ipaccess(..) values(..)` in a transaction
that is rolled back, the error returned, when `Begin`, `Prepare` or `Exec` fails, and
committed otherwise.  The error of `tx.Commit()` is dropped (api.go:127): when the
commit fails nothing is stored and `nil` is returned all the same. -/
def RegisterIpAccessRecord {F : Type} (impl : SupermanDetectorImpl F)
    (ipRecord : IpAccessRecord F) : SupermanDetectorImpl F × Option String :=
  let db := impl.ipaccessdb
  match db.nextFault with
  | some err => ({ impl with ipaccessdb := db.step }, some err)
  | none =>
    if db.rows.any (fun r => decide (r.Event_uuid = ipRecord.Event_uuid)) then
      ({ impl with ipaccessdb := db.step }, some uniqueConstraintFailed)
    else
      match db.step.nextFault with
      | some _ => ({ impl with ipaccessdb := db.step.step }, none)
      | none =>
        ({ impl with ipaccessdb := { db.step.step with rows := db.rows ++ [ipRecord] } },
          none)

/-- The order of `order by unix_timestamp`. -/
def byTimestamp {F : Type} (a b : IpAccessRecord F) : Prop :=
  a.Unix_timestamp ≤ b.Unix_timestamp

instance byTimestampDecidable {F : Type} : DecidableRel (byTimestamp (F := F)) :=
  fun a b => inferInstanceAs (Decidable (a.Unix_timestamp ≤ b.Unix_timestamp))

instance byTimestampTotal {F : Type} : IsTotal (IpAccessRecord F) byTimestamp :=
  ⟨fun a b => Int.le_total a.Unix_timestamp b.Unix_timestamp⟩

instance byTimestampTrans {F : Type} : IsTrans (IpAccessRecord F) byTimestamp :=
  ⟨fun _ _ _ hab hbc => Int.le_trans hab hbc⟩

/-- The row of `select .. from ipaccess where unix_timestamp < ? order by unix_timestamp
limit 1`; rows of equal timestamp keep their insertion order. -/
def selectPreceding {F : Type} (rows : List (IpAccessRecord F)) (t : Int) :
    Option (IpAccessRecord F) :=
  ((rows.filter (fun r => decide (r.Unix_timestamp < t))).insertionSort byTimestamp).head?

/-- The row of `select .. from ipaccess where unix_timestamp > ? order by unix_timestamp
limit 1`; rows of equal timestamp keep their insertion order. -/
def selectSubsequent {F : Type} (rows : List (IpAccessRecord F)) (t : Int) :
    Option (IpAccessRecord F) :=
  ((rows.filter (fun r => decide (r.Unix_timestamp > t))).insertionSort byTimestamp).head?

/-- `CalculateSpeed`: `int(mi / float64(time))`. -/
def CalculateSpeed {F : Type} (ext : Extern F) (origin destination : Coord F)
    (time : Int) : Int :=
  let mi := (ext.Distance origin destination).1
  ext.int (ext.fdiv mi (ext.float64 time))

/-- `GetPrecedingIpAccess`.  The columns are scanned into strings and parsed back with
`strconv`; the embedding reads the stored values. -/
def GetPrecedingIpAccess {F : Type} (ext : Extern F) (impl : SupermanDetectorImpl F)
    (ipRecord : IpAccessRecord F) :
    SupermanDetectorImpl F × Option (IpAccess F) × Option String :=
  let db := impl.ipaccessdb
  let impl1 := { impl with ipaccessdb := db.step }
  match db.nextFault with
  | some err => (impl1, none, some err)
  | none =>
    match selectPreceding db.rows ipRecord.Unix_timestamp with
    | none => (impl1, none, none)
    | some row =>
      let destination : Coord F := { Lat := ipRecord.Lat, Lon := ipRecord.Lon }
      let originLat := row.Lat
      let originLon := row.Lon
      let originRadius := row.Radius
      let originUnixTimestamp := row.Unix_timestamp
      let origin : Coord F := { Lat := originLat, Lon := originLon }
      let originTime := row.Unix_timestamp
      let time := Int.tdiv (toInt64 (ipRecord.Unix_timestamp - originTime)) 3600
      let speed := CalculateSpeed ext origin destination time
      (impl1,
       NewIpAccess
        { Ip := row.Ip_address
          Speed := toInt32 speed
          Lat := originLat
          Lon := originLon
          Radius := toInt32 originRadius
          Timestamp := toInt32 originUnixTimestamp },
       none)

/-- `GetSubsequentIpAccess`.  The columns are scanned into strings and parsed back with
`strconv`; the embedding reads the stored values. -/
def GetSubsequentIpAccess {F : Type} (ext : Extern F) (impl : SupermanDetectorImpl F)
    (ipRecord : IpAccessRecord F) :
    SupermanDetectorImpl F × Option (IpAccess F) × Option String :=
  let db := impl.ipaccessdb
  let impl1 := { impl with ipaccessdb := db.step }
  match db.nextFault with
  | some err => (impl1, none, some err)
  | none =>
    match selectSubsequent db.rows ipRecord.Unix_timestamp with
    | none => (impl1, none, none)
    | some row =>
      let origin : Coord F := { Lat := ipRecord.Lat, Lon := ipRecord.Lon }
      let destinationLat := row.Lat
      let destinationLon := row.Lon
      let destinationRadius := row.Radius
      let destinationUnixTimestamp := row.Unix_timestamp
      let destination : Coord F := { Lat := destinationLat, Lon := destinationLon }
      let destinationTime := row.Unix_timestamp
      let time := Int.tdiv (toInt64 (destinationTime - ipRecord.Unix_timestamp)) 3600
      let speed := CalculateSpeed ext origin destination time
      (impl1,
       NewIpAccess
        { Ip := row.Ip_address
          Speed := toInt32 speed
          Lat := destinationLat
          Lon := destinationLon
          Radius := toInt32 destinationRadius
          Timestamp := toInt32 destinationUnixTimestamp },
       none)

/-- The flag `*response.Travel..Suspicious = (neighbour.Speed > impl.speedThreshold)`,
set only when the neighbour is not nil. -/
def suspiciousFlag {F : Type} (neighbour : Option (IpAccess F)) (speedThreshold : Int) :
    Option Bool :=
  match neighbour with
  | some access => some (decide (access.Speed > speedThreshold))
  | none => none

/-- `PostIpAccessRequest`: the detector afterwards, the response and the error;
the outer `none` is a run-time panic. -/
def PostIpAccessRequest {F : Type} (ext : Extern F) (impl : SupermanDetectorImpl F)
    (request : IpAccessRequest) :
    Option (SupermanDetectorImpl F × Option (IpAccessResponse F) × Option ResourceError) :=
  let response : IpAccessResponse F := NewIpAccessResponse
  match IpAccessRequest2CurrentGeo ext impl request with
  | (_, some err) =>
    some (impl, none,
      some { Code := 200, Message := "Failed to get city from ip, Error:" ++ err })
  | (currentGeo, none) =>
    let response := { response with CurrentGeo := currentGeo }
    match GenerateIpAccessRecord request response.CurrentGeo with
    | none => none
    | some record =>
      match RegisterIpAccessRecord impl record with
      | (impl1, some err) =>
        some (impl1, none,
          some { Code := 200, Message := "Failed to register IpAccessRecord, Error:" ++ err })
      | (impl1, none) =>
        match GetPrecedingIpAccess ext impl1 record with
        | (impl2, _, some err) =>
          some (impl2, none,
            some { Code := 200, Message := "Failed get PrecedingIpAccess, Error:" ++ err })
        | (impl2, preceding, none) =>
          let response :=
            { response with
              PrecedingIpAccess := preceding
              TravelToCurrentGeoSuspicious := suspiciousFlag preceding impl2.speedThreshold }
          match GetSubsequentIpAccess ext impl2 record with
          | (impl3, _, some err) =>
            some (impl3, none,
              some { Code := 200, Message := "Failed get SubsequentIpAccess, Error:" ++ err })
          | (impl3, subsequent, none) =>
            let response :=
              { response with
                SubsequentIpAccess := subsequent
                TravelFromCurrentGeoSuspicious :=
                  suspiciousFlag subsequent impl3.speedThreshold }
            some (impl3, some response, none)

/-- The detector after `main.go` has handed the given requests, one after another, to
`PostIpAccessRequest`; `none` when one of them panics. -/
def serve {F : Type} (ext : Extern F) (impl : SupermanDetectorImpl F) :
    List IpAccessRequest → Option (SupermanDetectorImpl F)
  | [] => some impl
  | request :: rest =>
    match PostIpAccessRequest ext impl request with
    | none => none
    | some (impl1, _, _) => serve ext impl1 rest

/-- The value `time` of api.go:156: the divisor `GetPrecedingIpAccess` hands to
`CalculateSpeed` for the row it selected. -/
def precedingTime {F : Type} (ipRecord row : IpAccessRecord F) : Int :=
  Int.tdiv (toInt64 (ipRecord.Unix_timestamp - row.Unix_timestamp)) 3600

/-- The value `time` of api.go:193: the divisor `GetSubsequentIpAccess` hands to
`CalculateSpeed` for the row it selected. -/
def subsequentTime {F : Type} (ipRecord row : IpAccessRecord F) : Int :=
  Int.tdiv (toInt64 (row.Unix_timestamp - ipRecord.Unix_timestamp)) 3600

/-- The access `GetPrecedingIpAccess` builds for the row it selected (api.go:149-166). -/
def precedingAccess {F : Type} (ext : Extern F) (ipRecord row : IpAccessRecord F) :
    IpAccess F :=
  { Ip := row.Ip_address
    Speed := toInt32 (CalculateSpeed ext { Lat := row.Lat, Lon := row.Lon }
      { Lat := ipRecord.Lat, Lon := ipRecord.Lon } (precedingTime ipRecord row))
    Lat := row.Lat
    Lon := row.Lon
    Radius := toInt32 row.Radius
    Timestamp := toInt32 row.Unix_timestamp }

/-- The access `GetSubsequentIpAccess` builds for the row it selected
(api.go:186-203). -/
def subsequentAccess {F : Type} (ext : Extern F) (ipRecord row : IpAccessRecord F) :
    IpAccess F :=
  { Ip := row.Ip_address
    Speed := toInt32 (CalculateSpeed ext { Lat := ipRecord.Lat, Lon := ipRecord.Lon }
      { Lat := row.Lat, Lon := row.Lon } (subsequentTime ipRecord row))
    Lat := row.Lat
    Lon := row.Lon
    Radius := toInt32 row.Radius
    Timestamp := toInt32 row.Unix_timestamp }

/-- A record with its username blanked: two records differ in their usernames only
exactly when this makes them equal. -/
def IpAccessRecord.eraseUsername {F : Type} (r : IpAccessRecord F) : IpAccessRecord F :=
  { r with Username := "" }

/-- A request with its username blanked. -/
def IpAccessRequest.eraseUsername (r : IpAccessRequest) : IpAccessRequest :=
  { r with Username := "" }

/-- A detector with the usernames of all stored rows blanked. -/
def SupermanDetectorImpl.eraseUsernames {F : Type} (impl : SupermanDetectorImpl F) :
    SupermanDetectorImpl F :=
  { impl with
    ipaccessdb :=
      { impl.ipaccessdb with rows := impl.ipaccessdb.rows.map IpAccessRecord.eraseUsername } }

/-! ## A concrete instance

`float64` is replaced by integers: degrees in units of `10^-4`, miles as whole numbers. -/

/-- A table for `net.ParseIP` on the addresses of the examples; any other string,
the empty one included, is unparseable. -/
def exParseIP (s : String) : Option (List Nat) :=
  if s = "206.81.252.7" then some [206, 81, 252, 7]
  else if s = "91.207.175.104" then some [91, 207, 175, 104]
  else if s = "24.242.71.20" then some [24, 242, 71, 20]
  else if s = "10.0.0.0" then some [10, 0, 0, 0]
  else if s = "10.0.1.244" then some [10, 0, 1, 244]
  else if s = "10.0.1.245" then some [10, 0, 1, 245]
  else none

/-- A reader that knows the three addresses of `api_test.go`, places `10.0.b.c` at
latitude `256 * b + c` on the zero meridian, and rejects the nil IP as geoip2 does. -/
def exGeoReader : GeoReader Int where
  City ip :=
    match ip with
    | none => .error "ipAddress passed to Lookup cannot be nil"
    | some [206, 81, 252, 7] =>
      .ok { Latitude := 392293, Longitude := -766907, AccuracyRadius := 10 }
    | some [91, 207, 175, 104] =>
      .ok { Latitude := 340549, Longitude := -1182578, AccuracyRadius := 200 }
    | some [24, 242, 71, 20] =>
      .ok { Latitude := 303773, Longitude := -977100, AccuracyRadius := 5 }
    | some [10, 0, b, c] =>
      .ok { Latitude := 256 * b + c, Longitude := 0, AccuracyRadius := 1 }
    | some _ => .ok { Latitude := 0, Longitude := 0, AccuracyRadius := 0 }

/-- Integer stand-ins for the library functions: the two distances `api_test.go`
relies on in whole miles, otherwise the sum of the coordinate differences; integer
quotient for the `float64` division. -/
def exExtern : Extern Int where
  ParseIP := exParseIP
  Distance o d :=
    if o = { Lat := 340549, Lon := -1182578 } ∧ d = { Lat := 392293, Lon := -766907 } then
      (2311, 3719)
    else if o = { Lat := 392293, Lon := -766907 } ∧ d = { Lat := 303773, Lon := -977100 } then
      (1337, 2152)
    else
      ((o.Lat - d.Lat).natAbs + (o.Lon - d.Lon).natAbs, 0)
  float64 n := n
  fdiv x y := Int.tdiv x y
  int x := x

/-- The first record of `api_test.go` (Los Angeles). -/
def exRecordLA : IpAccessRecord Int :=
  { Username := "bob"
    Unix_timestamp := 1514761200
    Event_uuid := "85ad929a-db03-4bf4-9541-8f728fa12e42"
    Ip_address := "91.207.175.104"
    Lat := 340549
    Lon := -1182578
    Radius := 200 }

/-- The second record of `api_test.go` (Baltimore), one hour later. -/
def exRecordBaltimore : IpAccessRecord Int :=
  { Username := "bob"
    Unix_timestamp := 1514764800
    Event_uuid := "85ad929a-db03-4bf4-9541-8f728fa12e41"
    Ip_address := "206.81.252.7"
    Lat := 392293
    Lon := -766907
    Radius := 10 }

/-- The third record of `api_test.go` (Austin), a day after the second. -/
def exRecordAustin : IpAccessRecord Int :=
  { Username := "bob"
    Unix_timestamp := 1514851200
    Event_uuid := "85ad929a-db03-4bf4-9541-8f728fa12e40"
    Ip_address := "24.242.71.20"
    Lat := 303773
    Lon := -977100
    Radius := 5 }

/-- A detector over the given rows whose handle meets the given failures. -/
def exImpl (rows : List (IpAccessRecord Int)) (faults : List (Option String)) :
    SupermanDetectorImpl Int :=
  { baseUrl := "http://0.0.0.0:80/"
    ipaccessdb := { rows := rows, faults := faults }
    geodb := exGeoReader
    speedThreshold := 500 }

/-- The request of `TestPostIpAccessRequest`, from Baltimore. -/
def exRequest : IpAccessRequest :=
  { Username := "bob"
    Unix_timestamp := 1514764800
    Event_uuid := "85ad929a-db03-4bf4-9541-8f728fa12e41"
    Ip_address := "206.81.252.7" }

/-- The response `TestPostIpAccessRequest` expects for `exRequest` between the
Los Angeles and the Austin record. -/
def exResponse : IpAccessResponse Int :=
  { CurrentGeo := some { Lat := 392293, Lon := -766907, Radius := 10 }
    TravelToCurrentGeoSuspicious := some true
    TravelFromCurrentGeoSuspicious := some false
    PrecedingIpAccess :=
      some { Ip := "91.207.175.104", Speed := 2311, Lat := 340549, Lon := -1182578,
             Radius := 200, Timestamp := 1514761200 }
    SubsequentIpAccess :=
      some { Ip := "24.242.71.20", Speed := 55, Lat := 303773, Lon := -977100,
             Radius := 5, Timestamp := 1514851200 } }

/-- A first request, from `10.0.0.0`, placed at latitude `0`. -/
def exRequestOrigin : IpAccessRequest :=
  { Username := "alice"
    Unix_timestamp := 1514761200
    Event_uuid := "00000000-0000-4000-8000-000000000000"
    Ip_address := "10.0.0.0" }

/-- The record `exRequestOrigin` leaves in the store. -/
def exRecordOrigin : IpAccessRecord Int :=
  { Username := "alice"
    Unix_timestamp := 1514761200
    Event_uuid := "00000000-0000-4000-8000-000000000000"
    Ip_address := "10.0.0.0"
    Lat := 0
    Lon := 0
    Radius := 1 }

/-- A request one hour after `exRequestOrigin`, `500` miles away. -/
def exRequest500 : IpAccessRequest :=
  { Username := "alice"
    Unix_timestamp := 1514764800
    Event_uuid := "00000000-0000-4000-8000-000000000500"
    Ip_address := "10.0.1.244" }

/-- A request one hour after `exRequestOrigin`, `501` miles away. -/
def exRequest501 : IpAccessRequest :=
  { Username := "alice"
    Unix_timestamp := 1514764800
    Event_uuid := "00000000-0000-4000-8000-000000000501"
    Ip_address := "10.0.1.245" }

/-- The response to `exRequest500` after `exRequestOrigin`. -/
def exResponse500 : IpAccessResponse Int :=
  { CurrentGeo := some { Lat := 500, Lon := 0, Radius := 1 }
    TravelToCurrentGeoSuspicious := some false
    TravelFromCurrentGeoSuspicious := none
    PrecedingIpAccess :=
      some { Ip := "10.0.0.0", Speed := 500, Lat := 0, Lon := 0, Radius := 1,
             Timestamp := 1514761200 }
    SubsequentIpAccess := none }

/-- The response to `exRequest501` after `exRequestOrigin`. -/
def exResponse501 : IpAccessResponse Int :=
  { CurrentGeo := some { Lat := 501, Lon := 0, Radius := 1 }
    TravelToCurrentGeoSuspicious := some true
    TravelFromCurrentGeoSuspicious := none
    PrecedingIpAccess :=
      some { Ip := "10.0.0.0", Speed := 501, Lat := 0, Lon := 0, Radius := 1,
             Timestamp := 1514761200 }
    SubsequentIpAccess := none }

/-- The record a request leaves in the store, given the point its address resolves to. -/
def exRecordOf (request : IpAccessRequest) (lat lon radius : Int) : IpAccessRecord Int :=
  { Username := request.Username
    Unix_timestamp := request.Unix_timestamp
    Event_uuid := request.Event_uuid
    Ip_address := request.Ip_address
    Lat := lat
    Lon := lon
    Radius := radius }

/-- A record of another event at the very timestamp of `exRequest`. -/
def exRecordTie : IpAccessRecord Int :=
  { Username := "carol"
    Unix_timestamp := 1514764800
    Event_uuid := "85ad929a-db03-4bf4-9541-8f728fa12e43"
    Ip_address := "24.242.71.20"
    Lat := 303773
    Lon := -977100
    Radius := 5 }

/-- A record of 19 January 2038, 03:14:08 UTC, the first second past the `int32` range. -/
def exRecord2038 : IpAccessRecord Int :=
  { Username := "bob"
    Unix_timestamp := 2147483648
    Event_uuid := "85ad929a-db03-4bf4-9541-8f728fa12e44"
    Ip_address := "91.207.175.104"
    Lat := 340549
    Lon := -1182578
    Radius := 200 }

/-- A record one hour after `exRecord2038`. -/
def exRecordAfter2038 : IpAccessRecord Int :=
  { Username := "bob"
    Unix_timestamp := 2147487248
    Event_uuid := "85ad929a-db03-4bf4-9541-8f728fa12e45"
    Ip_address := "206.81.252.7"
    Lat := 392293
    Lon := -766907
    Radius := 10 }

/-- A record of 7 February 2106, 06:28:21 UTC: the timestamp `2^32 + 5`. -/
def exRecord2106 : IpAccessRecord Int :=
  { Username := "bob"
    Unix_timestamp := 4294967301
    Event_uuid := "85ad929a-db03-4bf4-9541-8f728fa12e48"
    Ip_address := "24.242.71.20"
    Lat := 303773
    Lon := -977100
    Radius := 5 }

/-- A record of the last second before 1970. -/
def exRecordBefore1970 : IpAccessRecord Int :=
  { Username := "bob"
    Unix_timestamp := -1
    Event_uuid := "85ad929a-db03-4bf4-9541-8f728fa12e46"
    Ip_address := "91.207.175.104"
    Lat := 340549
    Lon := -1182578
    Radius := 200 }

/-- A record at the greatest `int64` timestamp. -/
def exRecordMaxInt64 : IpAccessRecord Int :=
  { Username := "bob"
    Unix_timestamp := 9223372036854775807
    Event_uuid := "85ad929a-db03-4bf4-9541-8f728fa12e47"
    Ip_address := "206.81.252.7"
    Lat := 392293
    Lon := -766907
    Radius := 10 }

/-- A request half an hour after `exRequestOrigin`, `500` miles away. -/
def exRequestSoon : IpAccessRequest :=
  { Username := "alice"
    Unix_timestamp := 1514763000
    Event_uuid := "00000000-0000-4000-8000-000000001800"
    Ip_address := "10.0.1.244" }

/-- A record of another user half an hour after `exRequestSoon`, at latitude `501`. -/
def exRecordLater : IpAccessRecord Int :=
  { Username := "dave"
    Unix_timestamp := 1514764800
    Event_uuid := "00000000-0000-4000-8000-000000005400"
    Ip_address := "10.0.1.245"
    Lat := 501
    Lon := 0
    Radius := 1 }

/-! ## The two queries -/

/-- The first row of `where p order by unix_timestamp` is a stored row satisfying `p`
whose timestamp no stored row satisfying `p` undercuts. -/
theorem orderBy_head_least {F : Type} (p : IpAccessRecord F → Bool)
    (rows : List (IpAccessRecord F)) (row : IpAccessRecord F)
    (h : ((rows.filter p).insertionSort byTimestamp).head? = some row) :
    row ∈ rows ∧ p row = true ∧
      ∀ r ∈ rows, p r = true → row.Unix_timestamp ≤ r.Unix_timestamp := by
  have hperm := List.perm_insertionSort byTimestamp (rows.filter p)
  have hsorted := List.sorted_insertionSort byTimestamp (rows.filter p)
  cases hs : (rows.filter p).insertionSort byTimestamp with
  | nil => rw [hs] at h; simp at h
  | cons a tl =>
    rw [hs] at h hperm hsorted
    simp only [List.head?_cons, Option.some.injEq] at h
    subst h
    have hmem : a ∈ rows.filter p := hperm.subset (List.mem_cons_self a tl)
    rw [List.mem_filter] at hmem
    refine ⟨hmem.1, hmem.2, ?_⟩
    intro r hr hpr
    have hr2 : r ∈ a :: tl := hperm.symm.subset (List.mem_filter.mpr ⟨hr, hpr⟩)
    rcases List.mem_cons.mp hr2 with heq | htl
    · subst heq; exact Int.le_refl _
    · exact List.rel_of_sorted_cons hsorted r htl

/-- The query `where p order by unix_timestamp limit 1` finds no row exactly when no
stored row satisfies `p`. -/
theorem orderBy_head_none {F : Type} (p : IpAccessRecord F → Bool)
    (rows : List (IpAccessRecord F)) :
    ((rows.filter p).insertionSort byTimestamp).head? = none ↔
      ∀ r ∈ rows, p r = false := by
  have hperm := List.perm_insertionSort byTimestamp (rows.filter p)
  rw [List.head?_eq_none_iff]
  constructor
  · intro h r hr
    rw [h] at hperm
    have hnil : rows.filter p = [] := List.Perm.eq_nil hperm.symm
    cases hp : p r with
    | false => rfl
    | true =>
      have : r ∈ rows.filter p := List.mem_filter.mpr ⟨hr, hp⟩
      rw [hnil] at this
      cases this
  · intro h
    have hnil : rows.filter p = [] := by
      rw [List.filter_eq_nil_iff]
      intro r hr
      simp [h r hr]
    rw [hnil]
    rfl

/-- Go's `int32(x)` leaves a value of the `int32` range as it is. -/
theorem toInt32_of_isInt32 (n : Int) (h : isInt32 n) : toInt32 n = n := by
  unfold isInt32 at h
  unfold toInt32
  omega

/-- **C1** (evaluation at the failing input).  With the records of Los Angeles
(`1514761200`) and Baltimore (`1514764800`) stored, the preceding access of the Austin
record (`1514851200`) that `GetPrecedingIpAccess` returns carries the address and the
timestamp of Los Angeles, the earliest record before the query timestamp, and not those
of Baltimore, the nearest one. -/
theorem GetPrecedingIpAccess_returns_earliest :
    exRecordLA.Unix_timestamp < exRecordBaltimore.Unix_timestamp
    ∧ exRecordBaltimore.Unix_timestamp < exRecordAustin.Unix_timestamp
    ∧ selectPreceding [exRecordLA, exRecordBaltimore, exRecordAustin]
        exRecordAustin.Unix_timestamp = some exRecordLA
    ∧ (GetPrecedingIpAccess exExtern
        (exImpl [exRecordLA, exRecordBaltimore, exRecordAustin] []) exRecordAustin).2.2
      = none
    ∧ (GetPrecedingIpAccess exExtern
        (exImpl [exRecordLA, exRecordBaltimore, exRecordAustin] [])
        exRecordAustin).2.1.map (fun a => (a.Ip, a.Timestamp))
      = some ("91.207.175.104", 1514761200) := by
  decide

/-- **C2** (counterexample).  The only stored row after the Los Angeles record has the
timestamp `4294967301`; the access `GetSubsequentIpAccess` returns for it has the
timestamp `5`, which is no stored timestamp and is not greater than the timestamp of
the query. -/
theorem GetSubsequentIpAccess_timestamp_wrapped :
    selectSubsequent [exRecordLA, exRecord2106] exRecordLA.Unix_timestamp
      = some exRecord2106 ∧
    ∃ access,
      (GetSubsequentIpAccess exExtern (exImpl [exRecordLA, exRecord2106] [])
        exRecordLA).2 = (some access, none) ∧
      access.Timestamp = 5 ∧
      ¬ exRecordLA.Unix_timestamp < access.Timestamp ∧
      ∀ r ∈ [exRecordLA, exRecord2106], r.Unix_timestamp ≠ access.Timestamp :=
  ⟨by decide, _, rfl, by decide, by decide, by decide⟩

/-- **C2** (amended).  On a handle that meets no storage failure, `GetSubsequentIpAccess`
returns `(nil, nil)` exactly when no stored row has a timestamp strictly greater than
the record's; otherwise it returns, without error, the access built from a stored row
whose timestamp is strictly greater than the record's and least among the stored
timestamps strictly greater than it.  The timestamp of that access is the row's
converted to `int32`: the row's timestamp itself when it lies in `[-2^31, 2^31)`. -/
theorem GetSubsequentIpAccess_nearest_after {F : Type} (ext : Extern F)
    (impl : SupermanDetectorImpl F) (ipRecord : IpAccessRecord F)
    (hfault : impl.ipaccessdb.nextFault = none) :
    ((GetSubsequentIpAccess ext impl ipRecord).2 = (none, none) ↔
        ∀ r ∈ impl.ipaccessdb.rows, ¬ ipRecord.Unix_timestamp < r.Unix_timestamp) ∧
    ((GetSubsequentIpAccess ext impl ipRecord).2 = (none, none) ∨
      ∃ row access,
        (GetSubsequentIpAccess ext impl ipRecord).2 = (some access, none) ∧
        row ∈ impl.ipaccessdb.rows ∧
        ipRecord.Unix_timestamp < row.Unix_timestamp ∧
        (∀ r ∈ impl.ipaccessdb.rows, ipRecord.Unix_timestamp < r.Unix_timestamp →
          row.Unix_timestamp ≤ r.Unix_timestamp) ∧
        access.Ip = row.Ip_address ∧ access.Lat = row.Lat ∧ access.Lon = row.Lon ∧
        access.Timestamp = toInt32 row.Unix_timestamp ∧
        (isInt32 row.Unix_timestamp → access.Timestamp = row.Unix_timestamp)) := by
  have hnone := orderBy_head_none
    (fun r => decide (r.Unix_timestamp > ipRecord.Unix_timestamp)) impl.ipaccessdb.rows
  cases hsel : selectSubsequent impl.ipaccessdb.rows ipRecord.Unix_timestamp with
  | none =>
    have hres : (GetSubsequentIpAccess ext impl ipRecord).2 = (none, none) := by
      simp [GetSubsequentIpAccess, hfault, hsel]
    refine ⟨⟨fun _ => ?_, fun _ => hres⟩, Or.inl hres⟩
    have hall := hnone.mp hsel
    intro r hr hlt
    have := hall r hr
    simp at this
    omega
  | some row =>
    have hres : (GetSubsequentIpAccess ext impl ipRecord).2 =
        (some { Ip := row.Ip_address
                Speed := toInt32 (CalculateSpeed ext
                  { Lat := ipRecord.Lat, Lon := ipRecord.Lon }
                  { Lat := row.Lat, Lon := row.Lon }
                  (Int.tdiv (toInt64 (row.Unix_timestamp - ipRecord.Unix_timestamp)) 3600))
                Lat := row.Lat
                Lon := row.Lon
                Radius := toInt32 row.Radius
                Timestamp := toInt32 row.Unix_timestamp }, none) := by
      simp [GetSubsequentIpAccess, hfault, hsel, NewIpAccess]
    obtain ⟨hmem, hp, hleast⟩ := orderBy_head_least _ _ _ hsel
    have hgt : ipRecord.Unix_timestamp < row.Unix_timestamp := by
      simpa using hp
    refine ⟨⟨fun h => ?_, fun h => ?_⟩,
      Or.inr ⟨row, _, hres, hmem, hgt, ?_, rfl, rfl, rfl, rfl,
        toInt32_of_isInt32 row.Unix_timestamp⟩⟩
    · rw [hres] at h
      simp at h
    · exact absurd hgt (h row hmem)
    · intro r hr hlt
      exact hleast r hr (by simpa using hlt)

/-- Witness of **C2**: between the Los Angeles and the Austin record, the access
following the Baltimore record is the one of Austin, with the timestamp of Austin. -/
theorem GetSubsequentIpAccess_nearest_after_witness :
    (GetSubsequentIpAccess exExtern (exImpl [exRecordLA, exRecordAustin] [])
        exRecordBaltimore).2 ≠ (none, none) ∧
    ∃ row access,
      (GetSubsequentIpAccess exExtern (exImpl [exRecordLA, exRecordAustin] [])
        exRecordBaltimore).2 = (some access, none) ∧
      row ∈ (exImpl [exRecordLA, exRecordAustin] []).ipaccessdb.rows ∧
      exRecordBaltimore.Unix_timestamp < row.Unix_timestamp ∧
      (∀ r ∈ (exImpl [exRecordLA, exRecordAustin] []).ipaccessdb.rows,
        exRecordBaltimore.Unix_timestamp < r.Unix_timestamp →
        row.Unix_timestamp ≤ r.Unix_timestamp) ∧
      access.Ip = row.Ip_address ∧ access.Lat = row.Lat ∧ access.Lon = row.Lon ∧
      access.Timestamp = toInt32 row.Unix_timestamp ∧
      (isInt32 row.Unix_timestamp → access.Timestamp = row.Unix_timestamp) ∧
      access.Timestamp = 1514851200 :=
  have h := GetSubsequentIpAccess_nearest_after exExtern
    (exImpl [exRecordLA, exRecordAustin] []) exRecordBaltimore rfl
  have hsome : (GetSubsequentIpAccess exExtern (exImpl [exRecordLA, exRecordAustin] [])
      exRecordBaltimore).2 ≠ (none, none) := by decide
  ⟨hsome,
    match h.2 with
    | Or.inl hnone => absurd hnone hsome
    | Or.inr ⟨row, access, hres, hmem, hgt, hleast, hip, hlat, hlon, hts, hfit⟩ =>
      have hrow : row = exRecordAustin := by
        have hm : row ∈ [exRecordLA, exRecordAustin] := hmem
        rcases List.mem_cons.mp hm with h1 | h2
        · subst h1
          exact absurd hgt (by decide)
        · exact List.mem_singleton.mp h2
      ⟨row, access, hres, hmem, hgt, hleast, hip, hlat, hlon, hts, hfit,
        by rw [hts, hrow]; decide⟩⟩

/-! ## The orchestrator -/

/-- What a call of `PostIpAccessRequest` that returns a response went through: the
address resolved, the record was inserted, and both queries returned without error. -/
theorem PostIpAccessRequest_response {F : Type} (ext : Extern F)
    (impl impl' : SupermanDetectorImpl F) (request : IpAccessRequest)
    (response : IpAccessResponse F) (err : Option ResourceError)
    (h : PostIpAccessRequest ext impl request = some (impl', some response, err)) :
    ∃ geo record impl1 impl2 preceding subsequent,
      IpAccessRequest2CurrentGeo ext impl request = (some geo, none) ∧
      GenerateIpAccessRecord request (some geo) = some record ∧
      RegisterIpAccessRecord impl record = (impl1, none) ∧
      GetPrecedingIpAccess ext impl1 record = (impl2, preceding, none) ∧
      GetSubsequentIpAccess ext impl2 record = (impl', subsequent, none) ∧
      err = none ∧
      response =
        { CurrentGeo := some geo
          TravelToCurrentGeoSuspicious := suspiciousFlag preceding impl2.speedThreshold
          TravelFromCurrentGeoSuspicious := suspiciousFlag subsequent impl'.speedThreshold
          PrecedingIpAccess := preceding
          SubsequentIpAccess := subsequent } := by
  unfold PostIpAccessRequest at h
  simp only [NewIpAccessResponse] at h
  split at h
  · simp at h
  · rename_i currentGeo hgeo
    split at h
    · simp at h
    · rename_i record hrec
      split at h
      · simp at h
      · rename_i impl1 hreg
        split at h
        · simp at h
        · rename_i impl2 preceding hpre
          split at h
          · simp at h
          · rename_i impl3 subsequent hsub
            simp only [Option.some.injEq, Prod.mk.injEq] at h
            obtain ⟨himpl, hresp, herr⟩ := h
            subst himpl
            cases currentGeo with
            | none => simp [GenerateIpAccessRecord] at hrec
            | some geo =>
              exact ⟨geo, record, impl1, impl2, preceding, subsequent, hgeo, hrec, hreg,
                hpre, hsub, herr.symm, hresp.symm⟩

/-- `RegisterIpAccessRecord` changes nothing of the detector but its store. -/
theorem RegisterIpAccessRecord_speedThreshold {F : Type} (impl : SupermanDetectorImpl F)
    (ipRecord : IpAccessRecord F) :
    (RegisterIpAccessRecord impl ipRecord).1.speedThreshold = impl.speedThreshold := by
  unfold RegisterIpAccessRecord
  simp only
  split
  · rfl
  · split
    · rfl
    · split <;> rfl

/-- `GetPrecedingIpAccess` changes nothing of the detector but its store. -/
theorem GetPrecedingIpAccess_speedThreshold {F : Type} (ext : Extern F)
    (impl : SupermanDetectorImpl F) (ipRecord : IpAccessRecord F) :
    (GetPrecedingIpAccess ext impl ipRecord).1.speedThreshold = impl.speedThreshold := by
  unfold GetPrecedingIpAccess
  simp only
  split
  · rfl
  · split <;> rfl

/-- `GetSubsequentIpAccess` changes nothing of the detector but its store. -/
theorem GetSubsequentIpAccess_speedThreshold {F : Type} (ext : Extern F)
    (impl : SupermanDetectorImpl F) (ipRecord : IpAccessRecord F) :
    (GetSubsequentIpAccess ext impl ipRecord).1.speedThreshold = impl.speedThreshold := by
  unfold GetSubsequentIpAccess
  simp only
  split
  · rfl
  · split <;> rfl

/-- `PostIpAccessRequest` never changes the threshold of the detector. -/
theorem PostIpAccessRequest_speedThreshold {F : Type} (ext : Extern F)
    (impl impl' : SupermanDetectorImpl F) (request : IpAccessRequest)
    (response : Option (IpAccessResponse F)) (err : Option ResourceError)
    (h : PostIpAccessRequest ext impl request = some (impl', response, err)) :
    impl'.speedThreshold = impl.speedThreshold := by
  unfold PostIpAccessRequest at h
  simp only [NewIpAccessResponse] at h
  split at h
  · simp only [Option.some.injEq, Prod.mk.injEq] at h
    rw [← h.1]
  · split at h
    · simp at h
    · rename_i record _
      have hreg := RegisterIpAccessRecord_speedThreshold impl record
      split at h
      · rename_i impl1 _ heq
        rw [heq] at hreg
        simp only [Option.some.injEq, Prod.mk.injEq] at h
        rw [← h.1]; exact hreg
      · rename_i impl1 heq
        rw [heq] at hreg
        have hpre := GetPrecedingIpAccess_speedThreshold ext impl1 record
        split at h
        · rename_i impl2 _ _ heq2
          rw [heq2] at hpre
          simp only [Option.some.injEq, Prod.mk.injEq] at h
          rw [← h.1]; exact hpre.trans hreg
        · rename_i impl2 _ heq2
          rw [heq2] at hpre
          have hsub := GetSubsequentIpAccess_speedThreshold ext impl2 record
          split at h
          · rename_i impl3 _ _ heq3
            rw [heq3] at hsub
            simp only [Option.some.injEq, Prod.mk.injEq] at h
            rw [← h.1]; exact hsub.trans (hpre.trans hreg)
          · rename_i impl3 _ heq3
            rw [heq3] at hsub
            simp only [Option.some.injEq, Prod.mk.injEq] at h
            rw [← h.1]; exact hsub.trans (hpre.trans hreg)

/-- Serving requests never changes the threshold of the detector. -/
theorem serve_speedThreshold {F : Type} (ext : Extern F) (requests : List IpAccessRequest) :
    ∀ impl impl' : SupermanDetectorImpl F, serve ext impl requests = some impl' →
      impl'.speedThreshold = impl.speedThreshold := by
  induction requests with
  | nil =>
    intro impl impl' h
    simp only [serve, Option.some.injEq] at h
    rw [h]
  | cons request rest ih =>
    intro impl impl' h
    simp only [serve] at h
    split at h
    · simp at h
    · rename_i impl1 response err hpost
      exact (ih impl1 impl' h).trans
        (PostIpAccessRequest_speedThreshold ext impl impl1 request response err hpost)

/-- A detector `NewSupermanDetectorImpl` returns has the threshold `500`. -/
theorem NewSupermanDetectorImpl_speedThreshold {F : Type} (geodb : GeoReader F)
    (faults : List (Option String)) (baseUrl : String) (impl : SupermanDetectorImpl F)
    (err : Option String)
    (h : NewSupermanDetectorImpl geodb faults baseUrl = (some impl, err)) :
    impl.speedThreshold = 500 := by
  unfold NewSupermanDetectorImpl at h
  split at h
  · simp at h
  · simp only [Prod.mk.injEq, Option.some.injEq] at h
    rw [← h.1]

/-- **C3**.  For a detector that `NewSupermanDetectorImpl` created and that has served
any requests since, each suspicious flag of a response of `PostIpAccessRequest` is
present exactly with its neighbour and equals `neighbour.Speed > 500`, the comparison
being strict: a neighbour speed of `500` gives `false`, one of `501` gives `true`. -/
theorem PostIpAccessRequest_suspicious_strict {F : Type} (ext : Extern F)
    (geodb : GeoReader F) (faults : List (Option String)) (baseUrl : String)
    (impl0 impl impl' : SupermanDetectorImpl F) (earlier : List IpAccessRequest)
    (request : IpAccessRequest) (response : IpAccessResponse F)
    (err : Option ResourceError)
    (hnew : NewSupermanDetectorImpl geodb faults baseUrl = (some impl0, none))
    (hserved : serve ext impl0 earlier = some impl)
    (hpost : PostIpAccessRequest ext impl request = some (impl', some response, err)) :
    response.TravelToCurrentGeoSuspicious =
        response.PrecedingIpAccess.map (fun a => decide (a.Speed > 500)) ∧
    response.TravelFromCurrentGeoSuspicious =
        response.SubsequentIpAccess.map (fun a => decide (a.Speed > 500)) ∧
    (∀ a, response.PrecedingIpAccess = some a →
      (a.Speed = 500 → response.TravelToCurrentGeoSuspicious = some false) ∧
      (a.Speed = 501 → response.TravelToCurrentGeoSuspicious = some true)) ∧
    (∀ a, response.SubsequentIpAccess = some a →
      (a.Speed = 500 → response.TravelFromCurrentGeoSuspicious = some false) ∧
      (a.Speed = 501 → response.TravelFromCurrentGeoSuspicious = some true)) := by
  have h0 : impl0.speedThreshold = 500 :=
    NewSupermanDetectorImpl_speedThreshold geodb faults baseUrl impl0 none hnew
  have h1 : impl.speedThreshold = 500 :=
    (serve_speedThreshold ext earlier impl0 impl hserved).trans h0
  have h3 : impl'.speedThreshold = 500 :=
    (PostIpAccessRequest_speedThreshold ext impl impl' request _ err hpost).trans h1
  obtain ⟨geo, record, impl1, impl2, preceding, subsequent, _, _, hreg, hpre, hsub, _, hresp⟩ :=
    PostIpAccessRequest_response ext impl impl' request response err hpost
  have h2 : impl2.speedThreshold = 500 := by
    have hp := GetPrecedingIpAccess_speedThreshold ext impl1 record
    have hr := RegisterIpAccessRecord_speedThreshold impl record
    rw [hpre] at hp
    rw [hreg] at hr
    exact hp.trans (hr.trans h1)
  subst hresp
  simp only [h2, h3]
  have hflag : ∀ n : Option (IpAccess F),
      suspiciousFlag n 500 = n.map (fun a => decide (a.Speed > 500)) := by
    intro n
    cases n <;> rfl
  refine ⟨hflag preceding, hflag subsequent, ?_, ?_⟩
  · intro a ha
    rw [ha]
    constructor <;> intro hs <;> simp [suspiciousFlag, hs]
  · intro a ha
    rw [ha]
    constructor <;> intro hs <;> simp [suspiciousFlag, hs]

/-- Witness of **C3**: a detector fresh from `NewSupermanDetectorImpl` that has served
one request answers a request `500` miles and one hour away with the flag `false`, and
one `501` miles away with the flag `true`. -/
theorem PostIpAccessRequest_suspicious_strict_witness :
    NewSupermanDetectorImpl exGeoReader [] "http://0.0.0.0:80/"
      = (some (exImpl [] []), none) ∧
    serve exExtern (exImpl [] []) [exRequestOrigin]
      = some (exImpl [exRecordOrigin] []) ∧
    PostIpAccessRequest exExtern (exImpl [exRecordOrigin] []) exRequest500
      = some (exImpl [exRecordOrigin, exRecordOf exRequest500 500 0 1] [],
          some exResponse500, none) ∧
    PostIpAccessRequest exExtern (exImpl [exRecordOrigin] []) exRequest501
      = some (exImpl [exRecordOrigin, exRecordOf exRequest501 501 0 1] [],
          some exResponse501, none) ∧
    exResponse500.TravelToCurrentGeoSuspicious = some false ∧
    exResponse501.TravelToCurrentGeoSuspicious = some true :=
  ⟨rfl, rfl, rfl, rfl,
    ((PostIpAccessRequest_suspicious_strict exExtern exGeoReader [] "http://0.0.0.0:80/"
        (exImpl [] []) (exImpl [exRecordOrigin] [])
        (exImpl [exRecordOrigin, exRecordOf exRequest500 500 0 1] [])
        [exRequestOrigin] exRequest500 exResponse500 none rfl rfl rfl).2.2.1
      _ rfl).1 rfl,
    ((PostIpAccessRequest_suspicious_strict exExtern exGeoReader [] "http://0.0.0.0:80/"
        (exImpl [] []) (exImpl [exRecordOrigin] [])
        (exImpl [exRecordOrigin, exRecordOf exRequest501 501 0 1] [])
        [exRequestOrigin] exRequest501 exResponse501 none rfl rfl rfl).2.2.1
      _ rfl).2 rfl⟩

/-- **C4**.  In every response `PostIpAccessRequest` returns,
`TravelToCurrentGeoSuspicious` is present if and only if `PrecedingIpAccess` is, and
`TravelFromCurrentGeoSuspicious` is present if and only if `SubsequentIpAccess` is. -/
theorem PostIpAccessRequest_flag_iff_neighbour {F : Type} (ext : Extern F)
    (impl impl' : SupermanDetectorImpl F) (request : IpAccessRequest)
    (response : IpAccessResponse F) (err : Option ResourceError)
    (hpost : PostIpAccessRequest ext impl request = some (impl', some response, err)) :
    ((∃ flag, response.TravelToCurrentGeoSuspicious = some flag) ↔
      (∃ access, response.PrecedingIpAccess = some access)) ∧
    ((∃ flag, response.TravelFromCurrentGeoSuspicious = some flag) ↔
      (∃ access, response.SubsequentIpAccess = some access)) := by
  obtain ⟨_, _, _, impl2, preceding, subsequent, _, _, _, _, _, _, hresp⟩ :=
    PostIpAccessRequest_response ext impl impl' request response err hpost
  subst hresp
  constructor
  · cases preceding <;> simp [suspiciousFlag]
  · cases subsequent <;> simp [suspiciousFlag]

/-- Witness of **C4**: the response `TestPostIpAccessRequest` expects has both
neighbours and both flags. -/
theorem PostIpAccessRequest_flag_iff_neighbour_witness :
    (((∃ flag, exResponse.TravelToCurrentGeoSuspicious = some flag) ↔
        (∃ access, exResponse.PrecedingIpAccess = some access)) ∧
      ((∃ flag, exResponse.TravelFromCurrentGeoSuspicious = some flag) ↔
        (∃ access, exResponse.SubsequentIpAccess = some access))) ∧
    PostIpAccessRequest exExtern (exImpl [exRecordLA, exRecordAustin] []) exRequest
      = some (exImpl [exRecordLA, exRecordAustin, exRecordBaltimore] [],
          some exResponse, none) :=
  ⟨PostIpAccessRequest_flag_iff_neighbour exExtern (exImpl [exRecordLA, exRecordAustin] [])
      (exImpl [exRecordLA, exRecordAustin, exRecordBaltimore] []) exRequest exResponse none
      rfl,
    rfl⟩

/-! ## Insertion -/

/-- A failed `RegisterIpAccessRecord` leaves the rows as they were and has used the
handle once. -/
theorem RegisterIpAccessRecord_failed {F : Type} (impl : SupermanDetectorImpl F)
    (ipRecord : IpAccessRecord F) (err : String)
    (h : (RegisterIpAccessRecord impl ipRecord).2 = some err) :
    (RegisterIpAccessRecord impl ipRecord).1.ipaccessdb.rows = impl.ipaccessdb.rows ∧
    (RegisterIpAccessRecord impl ipRecord).1.ipaccessdb.faults
      = impl.ipaccessdb.faults.tail := by
  unfold RegisterIpAccessRecord at h ⊢
  simp only at h ⊢
  split
  · exact ⟨rfl, rfl⟩
  · rename_i hfault
    rw [hfault] at h
    simp only at h
    split
    · exact ⟨rfl, rfl⟩
    · rename_i hany
      rw [if_neg hany] at h
      split at h <;> simp at h

/-- A `RegisterIpAccessRecord` that returns `nil` has used the handle twice, for the
statement and for the commit: the record is appended to the rows when the commit went
through, and the rows are what they were when it failed. -/
theorem RegisterIpAccessRecord_succeeded {F : Type} (impl : SupermanDetectorImpl F)
    (ipRecord : IpAccessRecord F)
    (h : (RegisterIpAccessRecord impl ipRecord).2 = none) :
    (impl.ipaccessdb.step.nextFault = none →
      (RegisterIpAccessRecord impl ipRecord).1.ipaccessdb.rows
        = impl.ipaccessdb.rows ++ [ipRecord]) ∧
    (RegisterIpAccessRecord impl ipRecord).1.ipaccessdb.faults
      = impl.ipaccessdb.faults.tail.tail ∧
    (∀ e, impl.ipaccessdb.step.nextFault = some e →
      (RegisterIpAccessRecord impl ipRecord).1.ipaccessdb.rows = impl.ipaccessdb.rows) := by
  unfold RegisterIpAccessRecord at h ⊢
  simp only at h ⊢
  split
  · rename_i hfault
    rw [hfault] at h
    simp at h
  · rename_i hfault
    rw [hfault] at h
    simp only at h
    split
    · rename_i hany
      rw [if_pos hany] at h
      simp at h
    · split
      · rename_i e hcommit
        refine ⟨fun hnone => ?_, rfl, fun _ _ => rfl⟩
        rw [hcommit] at hnone
        cases hnone
      · rename_i hcommit
        refine ⟨fun _ => rfl, rfl, fun e hsome => ?_⟩
        rw [hcommit] at hsome
        cases hsome

/-- A schedule without failures has none after its first entry either. -/
theorem all_none_tail (faults : List (Option String))
    (h : ∀ f ∈ faults, f = none) : ∀ f ∈ faults.tail, f = none :=
  fun f hf => h f (List.mem_of_mem_tail hf)

/-- **C5**.  When the store already holds a record with the event id of the record to
insert, `RegisterIpAccessRecord` returns an error (sqlite's unique-constraint failure
when the handle itself works) and the rows of the store are what they were, the stored
record among them. -/
theorem RegisterIpAccessRecord_duplicate_rejected {F : Type}
    (impl : SupermanDetectorImpl F) (ipRecord stored : IpAccessRecord F)
    (hstored : stored ∈ impl.ipaccessdb.rows)
    (hdup : stored.Event_uuid = ipRecord.Event_uuid) :
    (∃ err, (RegisterIpAccessRecord impl ipRecord).2 = some err) ∧
    (impl.ipaccessdb.nextFault = none →
      (RegisterIpAccessRecord impl ipRecord).2 = some uniqueConstraintFailed) ∧
    (RegisterIpAccessRecord impl ipRecord).1.ipaccessdb.rows = impl.ipaccessdb.rows ∧
    stored ∈ (RegisterIpAccessRecord impl ipRecord).1.ipaccessdb.rows := by
  have hany : impl.ipaccessdb.rows.any
      (fun r => decide (r.Event_uuid = ipRecord.Event_uuid)) = true := by
    rw [List.any_eq_true]
    exact ⟨stored, hstored, by simp [hdup]⟩
  have herr : ∃ err, (RegisterIpAccessRecord impl ipRecord).2 = some err := by
    unfold RegisterIpAccessRecord
    simp only
    split
    · exact ⟨_, rfl⟩
    · rw [if_pos hany]
      exact ⟨_, rfl⟩
  obtain ⟨err, he⟩ := herr
  have hrows := (RegisterIpAccessRecord_failed impl ipRecord err he).1
  refine ⟨⟨err, he⟩, ?_, hrows, ?_⟩
  · intro hfault
    unfold RegisterIpAccessRecord
    simp only [hfault]
    rw [if_pos hany]
  · rw [hrows]
    exact hstored

/-- Witness of **C5**: after the Los Angeles record has been inserted into the empty
store, a record with its event id and otherwise the fields of Baltimore is rejected. -/
theorem RegisterIpAccessRecord_duplicate_rejected_witness :
    (RegisterIpAccessRecord (exImpl [] []) exRecordLA).2 = none ∧
    (RegisterIpAccessRecord (exImpl [] []) exRecordLA).1.ipaccessdb.rows = [exRecordLA] ∧
    (RegisterIpAccessRecord (exImpl [exRecordLA] [])
        { exRecordBaltimore with Event_uuid := exRecordLA.Event_uuid }).2
      = some uniqueConstraintFailed ∧
    (RegisterIpAccessRecord (exImpl [exRecordLA] [])
        { exRecordBaltimore with Event_uuid := exRecordLA.Event_uuid }).1.ipaccessdb.rows
      = [exRecordLA] :=
  ⟨rfl, rfl,
    (RegisterIpAccessRecord_duplicate_rejected (exImpl [exRecordLA] [])
      { exRecordBaltimore with Event_uuid := exRecordLA.Event_uuid } exRecordLA
      (List.mem_singleton.mpr rfl) rfl).2.1 rfl,
    (RegisterIpAccessRecord_duplicate_rejected (exImpl [exRecordLA] [])
      { exRecordBaltimore with Event_uuid := exRecordLA.Event_uuid } exRecordLA
      (List.mem_singleton.mpr rfl) rfl).2.2.1⟩

/-! ## Failures of the orchestrator -/

/-- **C6**.  When the geo reader rejects the address of the request with the error
text `err`, `PostIpAccessRequest` returns no response and the error of code `200` whose
message is `Failed to get city from ip, Error:` followed by `err`, and the detector,
its store included, is what it was before the call. -/
theorem PostIpAccessRequest_geo_failure {F : Type} (ext : Extern F)
    (impl : SupermanDetectorImpl F) (request : IpAccessRequest) (err : String)
    (hgeo : impl.geodb.City (ext.ParseIP request.Ip_address) = .error err) :
    PostIpAccessRequest ext impl request
      = some (impl, none,
          some { Code := 200, Message := "Failed to get city from ip, Error:" ++ err }) := by
  unfold PostIpAccessRequest
  simp [IpAccessRequest2CurrentGeo, hgeo]

/-- Witness of **C6**: the request of `TestPostIpAccessRequest` with the empty
address. -/
theorem PostIpAccessRequest_geo_failure_witness :
    PostIpAccessRequest exExtern (exImpl [exRecordLA] []) { exRequest with Ip_address := "" }
      = some (exImpl [exRecordLA] [], none,
          some { Code := 200
                 Message := "Failed to get city from ip, Error:" ++
                   "ipAddress passed to Lookup cannot be nil" }) :=
  PostIpAccessRequest_geo_failure exExtern (exImpl [exRecordLA] [])
    { exRequest with Ip_address := "" } "ipAddress passed to Lookup cannot be nil" rfl

/-- **C7**.  When the address resolves and `RegisterIpAccessRecord` fails with the
error text `err`, `PostIpAccessRequest` returns no response and the error of code `200`
whose message is `Failed to register IpAccessRecord, Error:` followed by `err`; the
detector is left as the failed insertion left it, rows unchanged and the handle used
once, so that neither query has run. -/
theorem PostIpAccessRequest_register_failure {F : Type} (ext : Extern F)
    (impl : SupermanDetectorImpl F) (request : IpAccessRequest) (geo : CurrentGeo F)
    (record : IpAccessRecord F) (err : String)
    (hgeo : IpAccessRequest2CurrentGeo ext impl request = (some geo, none))
    (hrec : GenerateIpAccessRecord request (some geo) = some record)
    (hreg : (RegisterIpAccessRecord impl record).2 = some err) :
    PostIpAccessRequest ext impl request
      = some ((RegisterIpAccessRecord impl record).1, none,
          some { Code := 200,
                 Message := "Failed to register IpAccessRecord, Error:" ++ err }) ∧
    (RegisterIpAccessRecord impl record).1.ipaccessdb.rows = impl.ipaccessdb.rows ∧
    (RegisterIpAccessRecord impl record).1.ipaccessdb.faults
      = impl.ipaccessdb.faults.tail := by
  refine ⟨?_, RegisterIpAccessRecord_failed impl record err hreg⟩
  unfold PostIpAccessRequest
  simp only [NewIpAccessResponse, hgeo, hrec]
  generalize RegisterIpAccessRecord impl record = out at hreg ⊢
  obtain ⟨impl1, e⟩ := out
  simp only at hreg
  subst hreg
  rfl

/-- Witness of **C7**: the request of `TestPostIpAccessRequest` on a closed database;
the two later entries of the failure schedule are still there afterwards. -/
theorem PostIpAccessRequest_register_failure_witness :
    PostIpAccessRequest exExtern
        (exImpl [exRecordLA] [some "sql: database is closed", none, none]) exRequest
      = some (exImpl [exRecordLA] [none, none], none,
          some { Code := 200,
                 Message := "Failed to register IpAccessRecord, Error:" ++
                   "sql: database is closed" }) :=
  (PostIpAccessRequest_register_failure exExtern
    (exImpl [exRecordLA] [some "sql: database is closed", none, none]) exRequest
    { Lat := 392293, Lon := -766907, Radius := 10 } exRecordBaltimore
    "sql: database is closed" rfl rfl rfl).1

/-! ## Shape of the result -/

/-- The conversion `int32(city.Location.AccuracyRadius)` of a `uint16` is exact. -/
theorem toInt32_accuracyRadius (radius : Fin 65536) : toInt32 (radius.val : Int) = radius.val := by
  have h := radius.isLt
  unfold toInt32
  omega

/-- **C8**.  `PostIpAccessRequest` returns, for every request, either a response and
no error, the `CurrentGeo` of the response being present and equal to the latitude,
longitude and accuracy radius the geo reader gave for the address of the request, or
no response and an error; it does not panic. -/
theorem PostIpAccessRequest_response_xor_error {F : Type} (ext : Extern F)
    (impl : SupermanDetectorImpl F) (request : IpAccessRequest) :
    ∃ impl' response err,
      PostIpAccessRequest ext impl request = some (impl', response, err) ∧
      ((∃ resp city,
          response = some resp ∧ err = none ∧
          impl.geodb.City (ext.ParseIP request.Ip_address) = .ok city ∧
          resp.CurrentGeo = some { Lat := city.Latitude, Lon := city.Longitude,
                                   Radius := city.AccuracyRadius.val }) ∨
       (response = none ∧ ∃ e, err = some e)) := by
  unfold PostIpAccessRequest
  simp only [NewIpAccessResponse, IpAccessRequest2CurrentGeo]
  cases hcity : impl.geodb.City (ext.ParseIP request.Ip_address) with
  | error e =>
    exact ⟨_, _, _, rfl, Or.inr ⟨rfl, _, rfl⟩⟩
  | ok city =>
    simp only [NewCurrentGeo, GenerateIpAccessRecord, NewIpAccessRecord]
    generalize RegisterIpAccessRecord impl _ = registered
    obtain ⟨impl1, e1⟩ := registered
    cases e1 with
    | some e => exact ⟨_, _, _, rfl, Or.inr ⟨rfl, _, rfl⟩⟩
    | none =>
      simp only
      generalize GetPrecedingIpAccess ext impl1 _ = before
      obtain ⟨impl2, preceding, e2⟩ := before
      cases e2 with
      | some e => exact ⟨_, _, _, rfl, Or.inr ⟨rfl, _, rfl⟩⟩
      | none =>
        simp only
        generalize GetSubsequentIpAccess ext impl2 _ = after
        obtain ⟨impl3, subsequent, e3⟩ := after
        cases e3 with
        | some e => exact ⟨_, _, _, rfl, Or.inr ⟨rfl, _, rfl⟩⟩
        | none =>
          refine ⟨_, _, _, rfl, Or.inl ⟨_, city, rfl, rfl, rfl, ?_⟩⟩
          simp only [toInt32_accuracyRadius]

/-! ## No neighbour -/

/-- A handle whose schedule holds no failure meets none at its next call. -/
theorem nextFault_of_all_none {F : Type} (db : IpAccessDB F)
    (h : ∀ f ∈ db.faults, f = none) : db.nextFault = none := by
  unfold IpAccessDB.nextFault
  split
  · rfl
  · rename_i f rest heq
    exact h f (by rw [heq]; exact List.mem_cons_self f rest)

/-- A `RegisterIpAccessRecord` that returns `nil` on a handle that meets no storage
failure past the statement has committed: the record is appended to the rows, and the
handle meets no storage failure afterwards. -/
theorem RegisterIpAccessRecord_committed {F : Type} (impl : SupermanDetectorImpl F)
    (ipRecord : IpAccessRecord F)
    (h : (RegisterIpAccessRecord impl ipRecord).2 = none)
    (hworks : ∀ f ∈ impl.ipaccessdb.faults.tail, f = none) :
    (RegisterIpAccessRecord impl ipRecord).1.ipaccessdb.rows
      = impl.ipaccessdb.rows ++ [ipRecord] ∧
    ∀ f ∈ (RegisterIpAccessRecord impl ipRecord).1.ipaccessdb.faults, f = none := by
  obtain ⟨hrows, hfaults, _⟩ := RegisterIpAccessRecord_succeeded impl ipRecord h
  refine ⟨hrows (nextFault_of_all_none impl.ipaccessdb.step hworks), ?_⟩
  rw [hfaults]
  exact all_none_tail _ hworks

/-- `GetPrecedingIpAccess` on a working handle without a row before the timestamp. -/
theorem GetPrecedingIpAccess_none {F : Type} (ext : Extern F)
    (impl : SupermanDetectorImpl F) (ipRecord : IpAccessRecord F)
    (hfault : impl.ipaccessdb.nextFault = none)
    (hrows : ∀ r ∈ impl.ipaccessdb.rows, ¬ r.Unix_timestamp < ipRecord.Unix_timestamp) :
    GetPrecedingIpAccess ext impl ipRecord
      = ({ impl with ipaccessdb := impl.ipaccessdb.step }, none, none) := by
  have hsel : selectPreceding impl.ipaccessdb.rows ipRecord.Unix_timestamp = none := by
    unfold selectPreceding
    rw [orderBy_head_none]
    intro r hr
    simpa using hrows r hr
  simp [GetPrecedingIpAccess, hfault, hsel]

/-- `GetSubsequentIpAccess` on a working handle without a row after the timestamp. -/
theorem GetSubsequentIpAccess_none {F : Type} (ext : Extern F)
    (impl : SupermanDetectorImpl F) (ipRecord : IpAccessRecord F)
    (hfault : impl.ipaccessdb.nextFault = none)
    (hrows : ∀ r ∈ impl.ipaccessdb.rows, ¬ ipRecord.Unix_timestamp < r.Unix_timestamp) :
    GetSubsequentIpAccess ext impl ipRecord
      = ({ impl with ipaccessdb := impl.ipaccessdb.step }, none, none) := by
  have hsel : selectSubsequent impl.ipaccessdb.rows ipRecord.Unix_timestamp = none := by
    unfold selectSubsequent
    rw [orderBy_head_none]
    intro r hr
    simpa using hrows r hr
  simp [GetSubsequentIpAccess, hfault, hsel]

/-- **C9**.  When the address resolves, the record is inserted, the handle meets no
storage failure afterwards, and no row of the store has a timestamp strictly less or
strictly greater than the request's (rows at the very timestamp may be there, and the
inserted record is), `PostIpAccessRequest` returns without error a response that holds
the resolved point and neither a neighbour nor a flag. -/
theorem PostIpAccessRequest_no_neighbour {F : Type} (ext : Extern F)
    (impl : SupermanDetectorImpl F) (request : IpAccessRequest) (geo : CurrentGeo F)
    (record : IpAccessRecord F)
    (hgeo : IpAccessRequest2CurrentGeo ext impl request = (some geo, none))
    (hrec : GenerateIpAccessRecord request (some geo) = some record)
    (hreg : (RegisterIpAccessRecord impl record).2 = none)
    (hworks : ∀ f ∈ impl.ipaccessdb.faults.tail, f = none)
    (hrows : ∀ r ∈ impl.ipaccessdb.rows,
      ¬ r.Unix_timestamp < request.Unix_timestamp ∧
      ¬ request.Unix_timestamp < r.Unix_timestamp) :
    ∃ impl',
      PostIpAccessRequest ext impl request
        = some (impl',
            some { CurrentGeo := some geo
                   TravelToCurrentGeoSuspicious := none
                   TravelFromCurrentGeoSuspicious := none
                   PrecedingIpAccess := none
                   SubsequentIpAccess := none },
            none) ∧
      impl'.ipaccessdb.rows = impl.ipaccessdb.rows ++ [record] := by
  have hts : record.Unix_timestamp = request.Unix_timestamp := by
    simp only [GenerateIpAccessRecord, NewIpAccessRecord, Option.some.injEq] at hrec
    rw [← hrec]
  obtain ⟨hrows1, hfaults1⟩ := RegisterIpAccessRecord_committed impl record hreg hworks
  generalize hout : RegisterIpAccessRecord impl record = out at hreg hrows1 hfaults1
  obtain ⟨impl1, e1⟩ := out
  simp only at hreg hrows1 hfaults1
  subst hreg
  have hall1 : ∀ r ∈ impl1.ipaccessdb.rows,
      ¬ r.Unix_timestamp < record.Unix_timestamp ∧
      ¬ record.Unix_timestamp < r.Unix_timestamp := by
    intro r hr
    rw [hrows1, List.mem_append, List.mem_singleton] at hr
    rcases hr with hr | hr
    · rw [hts]; exact hrows r hr
    · subst hr; omega
  have hf1 : impl1.ipaccessdb.nextFault = none :=
    nextFault_of_all_none _ hfaults1
  have hf2 : impl1.ipaccessdb.step.nextFault = none :=
    nextFault_of_all_none impl1.ipaccessdb.step (all_none_tail _ hfaults1)
  have hpre := GetPrecedingIpAccess_none ext impl1 record hf1 (fun r hr => (hall1 r hr).1)
  have hsub := GetSubsequentIpAccess_none ext
    { impl1 with ipaccessdb := impl1.ipaccessdb.step } record hf2
    (fun r hr => (hall1 r hr).2)
  refine ⟨{ impl1 with ipaccessdb := impl1.ipaccessdb.step.step }, ?_, hrows1⟩
  unfold PostIpAccessRequest
  simp only [NewIpAccessResponse, hgeo, hrec, hout, hpre, hsub, suspiciousFlag]

/-- Witness of **C9**: the request of `TestPostIpAccessRequest` on a store whose only
record is one of another event at the same second. -/
theorem PostIpAccessRequest_no_neighbour_witness :
    ∃ impl',
      PostIpAccessRequest exExtern (exImpl [exRecordTie] []) exRequest
        = some (impl',
            some { CurrentGeo := some { Lat := 392293, Lon := -766907, Radius := 10 }
                   TravelToCurrentGeoSuspicious := none
                   TravelFromCurrentGeoSuspicious := none
                   PrecedingIpAccess := none
                   SubsequentIpAccess := none },
            none) ∧
      impl'.ipaccessdb.rows = (exImpl [exRecordTie] []).ipaccessdb.rows ++ [exRecordBaltimore] :=
  PostIpAccessRequest_no_neighbour exExtern (exImpl [exRecordTie] []) exRequest
    { Lat := 392293, Lon := -766907, Radius := 10 } exRecordBaltimore rfl rfl rfl
    (by decide) (by decide)

/-! ## Fields of the neighbour -/

/-- **C10** (counterexample).  The row of 19 January 2038, 03:14:08 UTC
(`2147483648`) is selected as the neighbour preceding a record one hour later, and the
access returned for it has the timestamp `-2147483648`, not the row's. -/
theorem GetPrecedingIpAccess_timestamp_narrowed :
    selectPreceding [exRecord2038, exRecordAfter2038] exRecordAfter2038.Unix_timestamp
      = some exRecord2038 ∧
    ∃ access,
      (GetPrecedingIpAccess exExtern (exImpl [exRecord2038, exRecordAfter2038] [])
        exRecordAfter2038).2 = (some access, none) ∧
      access.Timestamp = -2147483648 ∧
      access.Timestamp ≠ exRecord2038.Unix_timestamp :=
  ⟨by decide, _, rfl, by decide, by decide⟩

/-- **C10** (amended).  On a handle that meets no storage failure, the access returned
for the row a query selects carries that row's address, latitude, longitude and (an
`int32`) accuracy radius, whatever the fields of the current record are, and the row's
timestamp converted to `int32`: the row's timestamp itself when it lies in
`[-2^31, 2^31)`, and that timestamp wrapped modulo `2^32` otherwise. -/
theorem neighbour_carries_row_fields {F : Type} (ext : Extern F)
    (impl : SupermanDetectorImpl F) (ipRecord : IpAccessRecord F)
    (hfault : impl.ipaccessdb.nextFault = none) :
    (∀ row, selectPreceding impl.ipaccessdb.rows ipRecord.Unix_timestamp = some row →
      ∃ access,
        (GetPrecedingIpAccess ext impl ipRecord).2 = (some access, none) ∧
        access.Ip = row.Ip_address ∧ access.Lat = row.Lat ∧ access.Lon = row.Lon ∧
        (isInt32 row.Radius → access.Radius = row.Radius) ∧
        access.Timestamp = toInt32 row.Unix_timestamp ∧
        (isInt32 row.Unix_timestamp → access.Timestamp = row.Unix_timestamp)) ∧
    (∀ row, selectSubsequent impl.ipaccessdb.rows ipRecord.Unix_timestamp = some row →
      ∃ access,
        (GetSubsequentIpAccess ext impl ipRecord).2 = (some access, none) ∧
        access.Ip = row.Ip_address ∧ access.Lat = row.Lat ∧ access.Lon = row.Lon ∧
        (isInt32 row.Radius → access.Radius = row.Radius) ∧
        access.Timestamp = toInt32 row.Unix_timestamp ∧
        (isInt32 row.Unix_timestamp → access.Timestamp = row.Unix_timestamp)) := by
  constructor
  · intro row hsel
    refine ⟨⟨row.Ip_address,
      toInt32 (CalculateSpeed ext ⟨row.Lat, row.Lon⟩ ⟨ipRecord.Lat, ipRecord.Lon⟩
        (Int.tdiv (toInt64 (ipRecord.Unix_timestamp - row.Unix_timestamp)) 3600)),
      row.Lat, row.Lon, toInt32 row.Radius, toInt32 row.Unix_timestamp⟩,
      ?_, rfl, rfl, rfl, toInt32_of_isInt32 row.Radius, rfl,
      toInt32_of_isInt32 row.Unix_timestamp⟩
    simp only [GetPrecedingIpAccess, hfault, hsel, NewIpAccess]
  · intro row hsel
    refine ⟨⟨row.Ip_address,
      toInt32 (CalculateSpeed ext ⟨ipRecord.Lat, ipRecord.Lon⟩ ⟨row.Lat, row.Lon⟩
        (Int.tdiv (toInt64 (row.Unix_timestamp - ipRecord.Unix_timestamp)) 3600)),
      row.Lat, row.Lon, toInt32 row.Radius, toInt32 row.Unix_timestamp⟩,
      ?_, rfl, rfl, rfl, toInt32_of_isInt32 row.Radius, rfl,
      toInt32_of_isInt32 row.Unix_timestamp⟩
    simp only [GetSubsequentIpAccess, hfault, hsel, NewIpAccess]

/-- Witness of **C10**: for the Baltimore record between the Los Angeles and the
Austin record, the preceding access carries the fields of Los Angeles and the
subsequent one those of Austin. -/
theorem neighbour_carries_row_fields_witness :
    (∃ access,
      (GetPrecedingIpAccess exExtern (exImpl [exRecordLA, exRecordAustin] [])
        exRecordBaltimore).2 = (some access, none) ∧
      access.Ip = "91.207.175.104" ∧ access.Lat = 340549 ∧ access.Lon = -1182578 ∧
      access.Radius = 200 ∧ access.Timestamp = 1514761200) ∧
    (∃ access,
      (GetSubsequentIpAccess exExtern (exImpl [exRecordLA, exRecordAustin] [])
        exRecordBaltimore).2 = (some access, none) ∧
      access.Ip = "24.242.71.20" ∧ access.Lat = 303773 ∧ access.Lon = -977100 ∧
      access.Radius = 5 ∧ access.Timestamp = 1514851200) :=
  have h := neighbour_carries_row_fields exExtern (exImpl [exRecordLA, exRecordAustin] [])
    exRecordBaltimore rfl
  ⟨match h.1 exRecordLA (by decide) with
    | ⟨access, hres, hip, hlat, hlon, hradius, _, htime⟩ =>
      ⟨access, hres, hip, hlat, hlon, hradius (by decide), htime (by decide)⟩,
   match h.2 exRecordAustin (by decide) with
    | ⟨access, hres, hip, hlat, hlon, hradius, _, htime⟩ =>
      ⟨access, hres, hip, hlat, hlon, hradius (by decide), htime (by decide)⟩⟩

/-! ## What a call leaves in the store -/

/-- `GetPrecedingIpAccess` uses the handle once and changes nothing else. -/
theorem GetPrecedingIpAccess_detector {F : Type} (ext : Extern F)
    (impl : SupermanDetectorImpl F) (ipRecord : IpAccessRecord F) :
    (GetPrecedingIpAccess ext impl ipRecord).1
      = { impl with ipaccessdb := impl.ipaccessdb.step } := by
  unfold GetPrecedingIpAccess
  simp only
  split
  · rfl
  · split <;> rfl

/-- `GetSubsequentIpAccess` uses the handle once and changes nothing else. -/
theorem GetSubsequentIpAccess_detector {F : Type} (ext : Extern F)
    (impl : SupermanDetectorImpl F) (ipRecord : IpAccessRecord F) :
    (GetSubsequentIpAccess ext impl ipRecord).1
      = { impl with ipaccessdb := impl.ipaccessdb.step } := by
  unfold GetSubsequentIpAccess
  simp only
  split
  · rfl
  · split <;> rfl

/-- `RegisterIpAccessRecord` changes nothing of the detector but its store. -/
theorem RegisterIpAccessRecord_geodb {F : Type} (impl : SupermanDetectorImpl F)
    (ipRecord : IpAccessRecord F) :
    (RegisterIpAccessRecord impl ipRecord).1.geodb = impl.geodb := by
  unfold RegisterIpAccessRecord
  simp only
  split
  · rfl
  · split
    · rfl
    · split <;> rfl

/-- `GetPrecedingIpAccess` on a working handle with a row before the timestamp. -/
theorem GetPrecedingIpAccess_some {F : Type} (ext : Extern F)
    (impl : SupermanDetectorImpl F) (ipRecord row : IpAccessRecord F)
    (hfault : impl.ipaccessdb.nextFault = none)
    (hsel : selectPreceding impl.ipaccessdb.rows ipRecord.Unix_timestamp = some row) :
    GetPrecedingIpAccess ext impl ipRecord
      = ({ impl with ipaccessdb := impl.ipaccessdb.step },
          some (precedingAccess ext ipRecord row), none) := by
  simp only [GetPrecedingIpAccess, hfault, hsel, NewIpAccess, precedingAccess, precedingTime]

/-- `GetSubsequentIpAccess` on a working handle with a row after the timestamp. -/
theorem GetSubsequentIpAccess_some {F : Type} (ext : Extern F)
    (impl : SupermanDetectorImpl F) (ipRecord row : IpAccessRecord F)
    (hfault : impl.ipaccessdb.nextFault = none)
    (hsel : selectSubsequent impl.ipaccessdb.rows ipRecord.Unix_timestamp = some row) :
    GetSubsequentIpAccess ext impl ipRecord
      = ({ impl with ipaccessdb := impl.ipaccessdb.step },
          some (subsequentAccess ext ipRecord row), none) := by
  simp only [GetSubsequentIpAccess, hfault, hsel, NewIpAccess, subsequentAccess,
    subsequentTime]

/-- The point `IpAccessRequest2CurrentGeo` returns is the one of the city the reader
gave for the parsed address. -/
theorem IpAccessRequest2CurrentGeo_ok {F : Type} (ext : Extern F)
    (impl : SupermanDetectorImpl F) (request : IpAccessRequest) (geo : CurrentGeo F)
    (err : Option String)
    (h : IpAccessRequest2CurrentGeo ext impl request = (some geo, err)) :
    ∃ city, impl.geodb.City (ext.ParseIP request.Ip_address) = .ok city ∧
      geo = { Lat := city.Latitude, Lon := city.Longitude,
              Radius := city.AccuracyRadius.val } := by
  unfold IpAccessRequest2CurrentGeo at h
  simp only at h
  split at h
  · simp at h
  · rename_i city hcity
    simp only [NewCurrentGeo, Prod.mk.injEq, Option.some.injEq, toInt32_accuracyRadius] at h
    exact ⟨city, hcity, h.1.symm⟩

/-- The rows a call of `PostIpAccessRequest` that returns a response leaves: the rows
it found, in their order and unchanged, followed by the record of the request when the
commit of the insertion went through, and nothing else when the commit failed. -/
theorem PostIpAccessRequest_rows {F : Type} (ext : Extern F)
    (impl impl' : SupermanDetectorImpl F) (request : IpAccessRequest)
    (response : IpAccessResponse F) (err : Option ResourceError)
    (hpost : PostIpAccessRequest ext impl request = some (impl', some response, err)) :
    ∃ city,
      impl.geodb.City (ext.ParseIP request.Ip_address) = .ok city ∧
      (impl.ipaccessdb.step.nextFault = none →
        impl'.ipaccessdb.rows = impl.ipaccessdb.rows ++
          [{ Username := request.Username
             Unix_timestamp := request.Unix_timestamp
             Event_uuid := request.Event_uuid
             Ip_address := request.Ip_address
             Lat := city.Latitude
             Lon := city.Longitude
             Radius := city.AccuracyRadius.val }]) ∧
      (∀ e, impl.ipaccessdb.step.nextFault = some e →
        impl'.ipaccessdb.rows = impl.ipaccessdb.rows) := by
  obtain ⟨geo, record, impl1, impl2, preceding, subsequent, hgeo, hrec, hreg, hpre, hsub,
    _, _⟩ := PostIpAccessRequest_response ext impl impl' request response err hpost
  obtain ⟨city, hcity, hgeoeq⟩ := IpAccessRequest2CurrentGeo_ok ext impl request geo none hgeo
  subst hgeoeq
  simp only [GenerateIpAccessRecord, NewIpAccessRecord, Option.some.injEq] at hrec
  obtain ⟨hstored, _, hdropped⟩ :=
    RegisterIpAccessRecord_succeeded impl record (by rw [hreg])
  rw [hreg] at hstored hdropped
  have h2 := GetPrecedingIpAccess_detector ext impl1 record
  rw [hpre] at h2
  have h3 := GetSubsequentIpAccess_detector ext impl2 record
  rw [hsub] at h3
  simp only at h2 h3 hstored hdropped
  have hrows : impl'.ipaccessdb.rows = impl1.ipaccessdb.rows := by
    rw [h3, h2]
    rfl
  subst hrec
  refine ⟨city, hcity, fun hcommit => ?_, fun e hcommit => ?_⟩
  · rw [hrows]
    exact hstored hcommit
  · rw [hrows]
    exact hdropped e hcommit

/-- **C11** (evaluation at the failing input).  The request of
`TestPostIpAccessRequest` on a store holding the Los Angeles and the Austin record,
with a handle whose insert statement goes through and whose `tx.Commit()` then fails:
`RegisterIpAccessRecord` returns `nil`, `PostIpAccessRequest` returns the response the
test expects and no error, and the store holds the two records it held before, the
Baltimore record of the request not among them. -/
theorem PostIpAccessRequest_commit_failure_stores_nothing :
    (RegisterIpAccessRecord
        (exImpl [exRecordLA, exRecordAustin] [none, some "disk I/O error"])
        exRecordBaltimore).2 = none ∧
    (RegisterIpAccessRecord
        (exImpl [exRecordLA, exRecordAustin] [none, some "disk I/O error"])
        exRecordBaltimore).1.ipaccessdb.rows = [exRecordLA, exRecordAustin] ∧
    (PostIpAccessRequest exExtern
        (exImpl [exRecordLA, exRecordAustin] [none, some "disk I/O error"])
        exRequest).map (fun out => (out.1.ipaccessdb.rows, out.2))
      = some ([exRecordLA, exRecordAustin], some exResponse, none) ∧
    exRecordBaltimore ∉ [exRecordLA, exRecordAustin] := by
  decide

/-! ## The divisor of the speed -/

/-- Whole hours of a positive number of seconds that fits 64 bits: the wrap of the
subtraction is the identity, the quotient is not negative, and it is zero exactly
below `3600` seconds. -/
theorem wholeHours_of_pos (elapsed : Int) (hpos : 0 < elapsed)
    (hfits : elapsed < 9223372036854775808) :
    toInt64 elapsed = elapsed ∧
    Int.tdiv (toInt64 elapsed) 3600 = Int.tdiv elapsed 3600 ∧
    0 ≤ Int.tdiv (toInt64 elapsed) 3600 ∧
    (Int.tdiv (toInt64 elapsed) 3600 = 0 ↔ elapsed < 3600) := by
  have hwrap : toInt64 elapsed = elapsed := by
    unfold toInt64
    omega
  have hdiv : Int.tdiv elapsed 3600 = elapsed / 3600 :=
    Int.tdiv_eq_ediv (Int.le_of_lt hpos) (by decide)
  rw [hwrap, hdiv]
  refine ⟨rfl, rfl, ?_, ?_⟩
  · omega
  · omega

/-- **C12** (counterexample).  With a record of timestamp `-1` stored, the preceding
access of a record at the greatest `int64` timestamp is computed from that row; the
elapsed seconds are `2^63`, the 64-bit subtraction wraps them to `-2^63`, and the
divisor handed to `CalculateSpeed` is `-2562047788015215`, a negative number. -/
theorem precedingTime_negative_on_overflow :
    selectPreceding [exRecordBefore1970, exRecordMaxInt64] exRecordMaxInt64.Unix_timestamp
      = some exRecordBefore1970 ∧
    (GetPrecedingIpAccess exExtern (exImpl [exRecordBefore1970, exRecordMaxInt64] [])
        exRecordMaxInt64).2.1.map (fun a => a.Speed)
      = some (toInt32 (CalculateSpeed exExtern
          { Lat := exRecordBefore1970.Lat, Lon := exRecordBefore1970.Lon }
          { Lat := exRecordMaxInt64.Lat, Lon := exRecordMaxInt64.Lon }
          (-2562047788015215))) ∧
    exRecordMaxInt64.Unix_timestamp - exRecordBefore1970.Unix_timestamp
      = 9223372036854775808 ∧
    precedingTime exRecordMaxInt64 exRecordBefore1970 = -2562047788015215 ∧
    ¬ 0 ≤ precedingTime exRecordMaxInt64 exRecordBefore1970 := by
  decide

/-- **C12** (amended).  On a handle that meets no storage failure, the speed of the
access returned for a selected row is `CalculateSpeed` with the divisor `time`, the
64-bit difference of the timestamps (record minus row for the preceding neighbour, row
minus record for the subsequent one) divided by `3600` and truncated toward zero.  The
elapsed seconds are strictly positive, and when they are below `2^63` the divisor is
their truncated quotient by `3600`, is not negative, and is zero exactly when they are
below `3600`. -/
theorem elapsed_hours_divisor {F : Type} (ext : Extern F)
    (impl : SupermanDetectorImpl F) (ipRecord : IpAccessRecord F)
    (hfault : impl.ipaccessdb.nextFault = none) :
    (∀ row, selectPreceding impl.ipaccessdb.rows ipRecord.Unix_timestamp = some row →
      (∃ access,
        (GetPrecedingIpAccess ext impl ipRecord).2 = (some access, none) ∧
        access.Speed = toInt32 (CalculateSpeed ext { Lat := row.Lat, Lon := row.Lon }
          { Lat := ipRecord.Lat, Lon := ipRecord.Lon } (precedingTime ipRecord row))) ∧
      0 < ipRecord.Unix_timestamp - row.Unix_timestamp ∧
      (ipRecord.Unix_timestamp - row.Unix_timestamp < 9223372036854775808 →
        precedingTime ipRecord row
          = Int.tdiv (ipRecord.Unix_timestamp - row.Unix_timestamp) 3600 ∧
        0 ≤ precedingTime ipRecord row ∧
        (precedingTime ipRecord row = 0 ↔
          ipRecord.Unix_timestamp - row.Unix_timestamp < 3600))) ∧
    (∀ row, selectSubsequent impl.ipaccessdb.rows ipRecord.Unix_timestamp = some row →
      (∃ access,
        (GetSubsequentIpAccess ext impl ipRecord).2 = (some access, none) ∧
        access.Speed = toInt32 (CalculateSpeed ext
          { Lat := ipRecord.Lat, Lon := ipRecord.Lon }
          { Lat := row.Lat, Lon := row.Lon } (subsequentTime ipRecord row))) ∧
      0 < row.Unix_timestamp - ipRecord.Unix_timestamp ∧
      (row.Unix_timestamp - ipRecord.Unix_timestamp < 9223372036854775808 →
        subsequentTime ipRecord row
          = Int.tdiv (row.Unix_timestamp - ipRecord.Unix_timestamp) 3600 ∧
        0 ≤ subsequentTime ipRecord row ∧
        (subsequentTime ipRecord row = 0 ↔
          row.Unix_timestamp - ipRecord.Unix_timestamp < 3600))) := by
  constructor
  · intro row hsel
    have hlt : row.Unix_timestamp < ipRecord.Unix_timestamp := by
      simpa using (orderBy_head_least _ _ _ hsel).2.1
    have hpos : 0 < ipRecord.Unix_timestamp - row.Unix_timestamp := by omega
    refine ⟨⟨precedingAccess ext ipRecord row, ?_, rfl⟩, hpos, fun hfits => ?_⟩
    · rw [GetPrecedingIpAccess_some ext impl ipRecord row hfault hsel]
    · obtain ⟨_, h2, h3, h4⟩ := wholeHours_of_pos _ hpos hfits
      exact ⟨h2, h3, h4⟩
  · intro row hsel
    have hlt : ipRecord.Unix_timestamp < row.Unix_timestamp := by
      simpa using (orderBy_head_least _ _ _ hsel).2.1
    have hpos : 0 < row.Unix_timestamp - ipRecord.Unix_timestamp := by omega
    refine ⟨⟨subsequentAccess ext ipRecord row, ?_, rfl⟩, hpos, fun hfits => ?_⟩
    · rw [GetSubsequentIpAccess_some ext impl ipRecord row hfault hsel]
    · obtain ⟨_, h2, h3, h4⟩ := wholeHours_of_pos _ hpos hfits
      exact ⟨h2, h3, h4⟩

/-- Witness of **C12**: for the Baltimore record between the Los Angeles and the
Austin record the divisors are `1` hour (`3600` seconds) and `24` hours (`86400`
seconds). -/
theorem elapsed_hours_divisor_witness :
    precedingTime exRecordBaltimore exRecordLA = Int.tdiv (1514764800 - 1514761200) 3600 ∧
    0 ≤ precedingTime exRecordBaltimore exRecordLA ∧
    subsequentTime exRecordBaltimore exRecordAustin
      = Int.tdiv (1514851200 - 1514764800) 3600 ∧
    0 ≤ subsequentTime exRecordBaltimore exRecordAustin ∧
    precedingTime exRecordBaltimore exRecordLA = 1 ∧
    subsequentTime exRecordBaltimore exRecordAustin = 24 :=
  have h := elapsed_hours_divisor exExtern (exImpl [exRecordLA, exRecordAustin] [])
    exRecordBaltimore rfl
  have hp := (h.1 exRecordLA (by decide)).2.2 (by decide)
  have hs := (h.2 exRecordAustin (by decide)).2.2 (by decide)
  ⟨hp.1, hp.2.1, hs.1, hs.2.1, by decide, by decide⟩

/-! ## Usernames -/

/-- The preceding query selects the same row, up to its username, whatever the
usernames of the stored rows are. -/
theorem selectPreceding_eraseUsername {F : Type} (rows : List (IpAccessRecord F)) (t : Int) :
    selectPreceding (rows.map IpAccessRecord.eraseUsername) t
      = (selectPreceding rows t).map IpAccessRecord.eraseUsername := by
  unfold selectPreceding
  rw [List.filter_map, ← List.head?_map,
    List.map_insertionSort byTimestamp byTimestamp IpAccessRecord.eraseUsername _
      (fun _ _ _ _ => Iff.rfl)]
  rfl

/-- The subsequent query selects the same row, up to its username, whatever the
usernames of the stored rows are. -/
theorem selectSubsequent_eraseUsername {F : Type} (rows : List (IpAccessRecord F)) (t : Int) :
    selectSubsequent (rows.map IpAccessRecord.eraseUsername) t
      = (selectSubsequent rows t).map IpAccessRecord.eraseUsername := by
  unfold selectSubsequent
  rw [List.filter_map, ← List.head?_map,
    List.map_insertionSort byTimestamp byTimestamp IpAccessRecord.eraseUsername _
      (fun _ _ _ _ => Iff.rfl)]
  rfl

/-- `GetPrecedingIpAccess` commutes with blanking the usernames. -/
theorem GetPrecedingIpAccess_eraseUsernames {F : Type} (ext : Extern F)
    (impl : SupermanDetectorImpl F) (ipRecord : IpAccessRecord F) :
    GetPrecedingIpAccess ext impl.eraseUsernames ipRecord.eraseUsername
      = ((GetPrecedingIpAccess ext impl ipRecord).1.eraseUsernames,
          (GetPrecedingIpAccess ext impl ipRecord).2) := by
  have hsel := selectPreceding_eraseUsername impl.ipaccessdb.rows ipRecord.Unix_timestamp
  unfold GetPrecedingIpAccess
  simp only
  have hf : impl.eraseUsernames.ipaccessdb.nextFault = impl.ipaccessdb.nextFault := rfl
  have hr : impl.eraseUsernames.ipaccessdb.rows
      = impl.ipaccessdb.rows.map IpAccessRecord.eraseUsername := rfl
  have ht : ipRecord.eraseUsername.Unix_timestamp = ipRecord.Unix_timestamp := rfl
  rw [hf, hr, ht, hsel]
  cases impl.ipaccessdb.nextFault with
  | some e => rfl
  | none =>
    cases selectPreceding impl.ipaccessdb.rows ipRecord.Unix_timestamp with
    | none => rfl
    | some row => rfl

/-- `GetSubsequentIpAccess` commutes with blanking the usernames. -/
theorem GetSubsequentIpAccess_eraseUsernames {F : Type} (ext : Extern F)
    (impl : SupermanDetectorImpl F) (ipRecord : IpAccessRecord F) :
    GetSubsequentIpAccess ext impl.eraseUsernames ipRecord.eraseUsername
      = ((GetSubsequentIpAccess ext impl ipRecord).1.eraseUsernames,
          (GetSubsequentIpAccess ext impl ipRecord).2) := by
  have hsel := selectSubsequent_eraseUsername impl.ipaccessdb.rows ipRecord.Unix_timestamp
  unfold GetSubsequentIpAccess
  simp only
  have hf : impl.eraseUsernames.ipaccessdb.nextFault = impl.ipaccessdb.nextFault := rfl
  have hr : impl.eraseUsernames.ipaccessdb.rows
      = impl.ipaccessdb.rows.map IpAccessRecord.eraseUsername := rfl
  have ht : ipRecord.eraseUsername.Unix_timestamp = ipRecord.Unix_timestamp := rfl
  rw [hf, hr, ht, hsel]
  cases impl.ipaccessdb.nextFault with
  | some e => rfl
  | none =>
    cases selectSubsequent impl.ipaccessdb.rows ipRecord.Unix_timestamp with
    | none => rfl
    | some row => rfl

/-- `RegisterIpAccessRecord` commutes with blanking the usernames. -/
theorem RegisterIpAccessRecord_eraseUsernames {F : Type}
    (impl : SupermanDetectorImpl F) (ipRecord : IpAccessRecord F) :
    RegisterIpAccessRecord impl.eraseUsernames ipRecord.eraseUsername
      = ((RegisterIpAccessRecord impl ipRecord).1.eraseUsernames,
          (RegisterIpAccessRecord impl ipRecord).2) := by
  unfold RegisterIpAccessRecord
  simp only
  have hf : impl.eraseUsernames.ipaccessdb.nextFault = impl.ipaccessdb.nextFault := rfl
  have hany : impl.eraseUsernames.ipaccessdb.rows.any
        (fun r => decide (r.Event_uuid = ipRecord.eraseUsername.Event_uuid))
      = impl.ipaccessdb.rows.any (fun r => decide (r.Event_uuid = ipRecord.Event_uuid)) := by
    show (impl.ipaccessdb.rows.map IpAccessRecord.eraseUsername).any _ = _
    rw [List.any_map]
    rfl
  rw [hf, hany]
  cases impl.ipaccessdb.nextFault with
  | some e => rfl
  | none =>
    simp only
    split
    · rfl
    · have hc : impl.eraseUsernames.ipaccessdb.step.nextFault
          = impl.ipaccessdb.step.nextFault := rfl
      rw [hc]
      cases impl.ipaccessdb.step.nextFault with
      | some e => rfl
      | none => simp [SupermanDetectorImpl.eraseUsernames, IpAccessDB.step]

/-- `PostIpAccessRequest` commutes with blanking the usernames: the response and the
error are the same, and so is the detector afterwards up to usernames. -/
theorem PostIpAccessRequest_eraseUsernames {F : Type} (ext : Extern F)
    (impl : SupermanDetectorImpl F) (request : IpAccessRequest) :
    PostIpAccessRequest ext impl.eraseUsernames request.eraseUsername
      = (PostIpAccessRequest ext impl request).map
          (fun out => (out.1.eraseUsernames, out.2)) := by
  unfold PostIpAccessRequest
  simp only [NewIpAccessResponse]
  have hgeo : IpAccessRequest2CurrentGeo ext impl.eraseUsernames request.eraseUsername
      = IpAccessRequest2CurrentGeo ext impl request := rfl
  rw [hgeo]
  generalize IpAccessRequest2CurrentGeo ext impl request = resolved
  obtain ⟨currentGeo, e0⟩ := resolved
  cases e0 with
  | some e => rfl
  | none =>
    cases currentGeo with
    | none => rfl
    | some geo =>
      simp only [GenerateIpAccessRecord, NewIpAccessRecord]
      have hreg := RegisterIpAccessRecord_eraseUsernames impl
        { Username := request.Username
          Unix_timestamp := request.Unix_timestamp
          Event_uuid := request.Event_uuid
          Ip_address := request.Ip_address
          Lat := geo.Lat
          Lon := geo.Lon
          Radius := geo.Radius }
      have hrecord : ({ Username := request.eraseUsername.Username
                        Unix_timestamp := request.eraseUsername.Unix_timestamp
                        Event_uuid := request.eraseUsername.Event_uuid
                        Ip_address := request.eraseUsername.Ip_address
                        Lat := geo.Lat
                        Lon := geo.Lon
                        Radius := geo.Radius } : IpAccessRecord F)
          = IpAccessRecord.eraseUsername
              { Username := request.Username
                Unix_timestamp := request.Unix_timestamp
                Event_uuid := request.Event_uuid
                Ip_address := request.Ip_address
                Lat := geo.Lat
                Lon := geo.Lon
                Radius := geo.Radius } := rfl
      rw [hrecord, hreg]
      generalize RegisterIpAccessRecord impl _ = registered
      obtain ⟨impl1, e1⟩ := registered
      cases e1 with
      | some e => rfl
      | none =>
        simp only
        rw [GetPrecedingIpAccess_eraseUsernames]
        generalize GetPrecedingIpAccess ext impl1 _ = before
        obtain ⟨impl2, preceding, e2⟩ := before
        cases e2 with
        | some e => rfl
        | none =>
          simp only
          rw [GetSubsequentIpAccess_eraseUsernames]
          generalize GetSubsequentIpAccess ext impl2 _ = after
          obtain ⟨impl3, subsequent, e3⟩ := after
          cases e3 with
          | some e => rfl
          | none => rfl

/-- **C15**.  For two detectors that differ only in the usernames of their stored
rows, and two records, respectively two requests, that differ only in their usernames,
`GetPrecedingIpAccess` and `GetSubsequentIpAccess` return the same neighbour and error,
and `PostIpAccessRequest` returns the same response (neighbours, speeds and flags
included) and error and leaves stores that again differ only in usernames. -/
theorem neighbours_ignore_usernames {F : Type} (ext : Extern F)
    (impl1 impl2 : SupermanDetectorImpl F) (record1 record2 : IpAccessRecord F)
    (request1 request2 : IpAccessRequest)
    (hstore : impl1.eraseUsernames = impl2.eraseUsernames)
    (hrecord : record1.eraseUsername = record2.eraseUsername)
    (hrequest : request1.eraseUsername = request2.eraseUsername) :
    (GetPrecedingIpAccess ext impl1 record1).2 = (GetPrecedingIpAccess ext impl2 record2).2 ∧
    (GetSubsequentIpAccess ext impl1 record1).2
      = (GetSubsequentIpAccess ext impl2 record2).2 ∧
    (PostIpAccessRequest ext impl1 request1).map (fun out => out.2)
      = (PostIpAccessRequest ext impl2 request2).map (fun out => out.2) ∧
    (PostIpAccessRequest ext impl1 request1).map (fun out => out.1.eraseUsernames)
      = (PostIpAccessRequest ext impl2 request2).map (fun out => out.1.eraseUsernames) := by
  have hpre1 := GetPrecedingIpAccess_eraseUsernames ext impl1 record1
  have hpre2 := GetPrecedingIpAccess_eraseUsernames ext impl2 record2
  have hsub1 := GetSubsequentIpAccess_eraseUsernames ext impl1 record1
  have hsub2 := GetSubsequentIpAccess_eraseUsernames ext impl2 record2
  have hpost1 := PostIpAccessRequest_eraseUsernames ext impl1 request1
  have hpost2 := PostIpAccessRequest_eraseUsernames ext impl2 request2
  rw [hstore, hrecord] at hpre1 hsub1
  rw [hstore, hrequest] at hpost1
  rw [hpre2] at hpre1
  rw [hsub2] at hsub1
  rw [hpost2] at hpost1
  refine ⟨(congrArg Prod.snd hpre1).symm, (congrArg Prod.snd hsub1).symm, ?_, ?_⟩
  · have h := congrArg (Option.map (fun out => out.2)) hpost1
    simp only [Option.map_map] at h
    exact h.symm
  · have h := congrArg (Option.map (fun out => out.1)) hpost1
    simp only [Option.map_map] at h
    exact h.symm

/-- Witness of **C15**: a request of `alice` on a store whose only record is one of
`mallory` gets the response the request of `bob` gets on the same record of `bob`: the
preceding access is that record, with speed `2311` and the flag `true`. -/
theorem neighbours_ignore_usernames_witness :
    (PostIpAccessRequest exExtern (exImpl [exRecordLA] []) exRequest).map (fun out => out.2)
      = (PostIpAccessRequest exExtern
          (exImpl [{ exRecordLA with Username := "mallory" }] [])
          { exRequest with Username := "alice" }).map (fun out => out.2) ∧
    (PostIpAccessRequest exExtern
        (exImpl [{ exRecordLA with Username := "mallory" }] [])
        { exRequest with Username := "alice" }).map (fun out => out.2)
      = some (some { exResponse with
                     SubsequentIpAccess := none
                     TravelFromCurrentGeoSuspicious := none }, none) :=
  ⟨(neighbours_ignore_usernames exExtern (exImpl [exRecordLA] [])
      (exImpl [{ exRecordLA with Username := "mallory" }] [])
      exRecordBaltimore { exRecordBaltimore with Username := "alice" }
      exRequest { exRequest with Username := "alice" } rfl rfl rfl).2.2.1,
    rfl⟩


/-- `GetPrecedingIpAccess` on a working handle. -/
theorem GetPrecedingIpAccess_works {F : Type} (ext : Extern F)
    (impl : SupermanDetectorImpl F) (ipRecord : IpAccessRecord F)
    (hfault : impl.ipaccessdb.nextFault = none) :
    GetPrecedingIpAccess ext impl ipRecord
      = ({ impl with ipaccessdb := impl.ipaccessdb.step },
          (selectPreceding impl.ipaccessdb.rows ipRecord.Unix_timestamp).map
            (precedingAccess ext ipRecord), none) := by
  simp only [GetPrecedingIpAccess, hfault]
  cases selectPreceding impl.ipaccessdb.rows ipRecord.Unix_timestamp <;> rfl

/-- `GetSubsequentIpAccess` on a working handle. -/
theorem GetSubsequentIpAccess_works {F : Type} (ext : Extern F)
    (impl : SupermanDetectorImpl F) (ipRecord : IpAccessRecord F)
    (hfault : impl.ipaccessdb.nextFault = none) :
    GetSubsequentIpAccess ext impl ipRecord
      = ({ impl with ipaccessdb := impl.ipaccessdb.step },
          (selectSubsequent impl.ipaccessdb.rows ipRecord.Unix_timestamp).map
            (subsequentAccess ext ipRecord), none) := by
  simp only [GetSubsequentIpAccess, hfault]
  cases selectSubsequent impl.ipaccessdb.rows ipRecord.Unix_timestamp <;> rfl

/-- The response of `PostIpAccessRequest` when the address resolves, the record is
inserted and the handle meets no storage failure afterwards. -/
theorem PostIpAccessRequest_works {F : Type} (ext : Extern F)
    (impl : SupermanDetectorImpl F) (request : IpAccessRequest) (geo : CurrentGeo F)
    (record : IpAccessRecord F)
    (hgeo : IpAccessRequest2CurrentGeo ext impl request = (some geo, none))
    (hrec : GenerateIpAccessRecord request (some geo) = some record)
    (hreg : (RegisterIpAccessRecord impl record).2 = none)
    (hworks : ∀ f ∈ impl.ipaccessdb.faults.tail, f = none) :
    ∃ impl',
      PostIpAccessRequest ext impl request
        = some (impl',
            some { CurrentGeo := some geo
                   TravelToCurrentGeoSuspicious :=
                     suspiciousFlag
                       ((selectPreceding (impl.ipaccessdb.rows ++ [record])
                          record.Unix_timestamp).map (precedingAccess ext record))
                       impl.speedThreshold
                   TravelFromCurrentGeoSuspicious :=
                     suspiciousFlag
                       ((selectSubsequent (impl.ipaccessdb.rows ++ [record])
                          record.Unix_timestamp).map (subsequentAccess ext record))
                       impl.speedThreshold
                   PrecedingIpAccess :=
                     (selectPreceding (impl.ipaccessdb.rows ++ [record])
                       record.Unix_timestamp).map (precedingAccess ext record)
                   SubsequentIpAccess :=
                     (selectSubsequent (impl.ipaccessdb.rows ++ [record])
                       record.Unix_timestamp).map (subsequentAccess ext record) },
            none) := by
  obtain ⟨hrows1, hfaults1⟩ := RegisterIpAccessRecord_committed impl record hreg hworks
  have hthr := RegisterIpAccessRecord_speedThreshold impl record
  generalize hout : RegisterIpAccessRecord impl record = out at hreg hrows1 hfaults1 hthr
  obtain ⟨impl1, e1⟩ := out
  simp only at hreg hrows1 hfaults1 hthr
  subst hreg
  have hf1 : impl1.ipaccessdb.nextFault = none :=
    nextFault_of_all_none _ hfaults1
  have hf2 : impl1.ipaccessdb.step.nextFault = none :=
    nextFault_of_all_none impl1.ipaccessdb.step (all_none_tail _ hfaults1)
  have hpre := GetPrecedingIpAccess_works ext impl1 record hf1
  have hsub := GetSubsequentIpAccess_works ext
    { impl1 with ipaccessdb := impl1.ipaccessdb.step } record hf2
  refine ⟨{ impl1 with ipaccessdb := impl1.ipaccessdb.step.step }, ?_⟩
  unfold PostIpAccessRequest
  simp only [NewIpAccessResponse, hgeo, hrec, hout, hpre]
  simp only [hsub]
  simp only [IpAccessDB.step, hrows1, hthr]


/-! ## Neighbours within the hour -/

/-- **C16**.  When the address resolves, the record is inserted and the handle meets
no storage failure afterwards, `PostIpAccessRequest` returns a response and no error.
If the row a query selects is less than `3600` seconds away from the record, the
divisor handed to `CalculateSpeed` is `0`, the query all the same returns without error
the access of that row, its speed being whatever the division by `float64(0)` converts
to, and the response holds that access together with its suspicious flag. -/
theorem zero_hours_no_failure {F : Type} (ext : Extern F)
    (impl : SupermanDetectorImpl F) (request : IpAccessRequest) (geo : CurrentGeo F)
    (record : IpAccessRecord F)
    (hgeo : IpAccessRequest2CurrentGeo ext impl request = (some geo, none))
    (hrec : GenerateIpAccessRecord request (some geo) = some record)
    (hreg : (RegisterIpAccessRecord impl record).2 = none)
    (hworks : ∀ f ∈ impl.ipaccessdb.faults.tail, f = none) :
    ∃ impl' response,
      PostIpAccessRequest ext impl request = some (impl', some response, none) ∧
      (∀ row,
        selectPreceding (impl.ipaccessdb.rows ++ [record]) record.Unix_timestamp = some row →
        record.Unix_timestamp - row.Unix_timestamp < 3600 →
        precedingTime record row = 0 ∧
        (GetPrecedingIpAccess ext (RegisterIpAccessRecord impl record).1 record).2
          = (some (precedingAccess ext record row), none) ∧
        (precedingAccess ext record row).Speed
          = toInt32 (CalculateSpeed ext { Lat := row.Lat, Lon := row.Lon }
              { Lat := record.Lat, Lon := record.Lon } 0) ∧
        response.PrecedingIpAccess = some (precedingAccess ext record row) ∧
        response.TravelToCurrentGeoSuspicious
          = some (decide ((precedingAccess ext record row).Speed > impl.speedThreshold))) ∧
      (∀ row,
        selectSubsequent (impl.ipaccessdb.rows ++ [record]) record.Unix_timestamp = some row →
        row.Unix_timestamp - record.Unix_timestamp < 3600 →
        subsequentTime record row = 0 ∧
        (GetSubsequentIpAccess ext
            (GetPrecedingIpAccess ext (RegisterIpAccessRecord impl record).1 record).1
            record).2
          = (some (subsequentAccess ext record row), none) ∧
        (subsequentAccess ext record row).Speed
          = toInt32 (CalculateSpeed ext { Lat := record.Lat, Lon := record.Lon }
              { Lat := row.Lat, Lon := row.Lon } 0) ∧
        response.SubsequentIpAccess = some (subsequentAccess ext record row) ∧
        response.TravelFromCurrentGeoSuspicious
          = some (decide ((subsequentAccess ext record row).Speed > impl.speedThreshold))) := by
  obtain ⟨impl', hpost⟩ := PostIpAccessRequest_works ext impl request geo record hgeo hrec
    hreg hworks
  obtain ⟨hrows1, hfaults1⟩ := RegisterIpAccessRecord_committed impl record hreg hworks
  have hf1 : (RegisterIpAccessRecord impl record).1.ipaccessdb.nextFault = none :=
    nextFault_of_all_none _ hfaults1
  have hdet := GetPrecedingIpAccess_detector ext (RegisterIpAccessRecord impl record).1 record
  have hf2 : (GetPrecedingIpAccess ext (RegisterIpAccessRecord impl record).1
      record).1.ipaccessdb.nextFault = none := by
    rw [hdet]
    exact nextFault_of_all_none (RegisterIpAccessRecord impl record).1.ipaccessdb.step
      (all_none_tail _ hfaults1)
  have hrows2 : (GetPrecedingIpAccess ext (RegisterIpAccessRecord impl record).1
      record).1.ipaccessdb.rows = impl.ipaccessdb.rows ++ [record] := by
    rw [hdet]
    exact hrows1
  refine ⟨impl', _, hpost, ?_, ?_⟩
  · intro row hsel hnear
    have hlt : row.Unix_timestamp < record.Unix_timestamp := by
      simpa using (orderBy_head_least _ _ _ hsel).2.1
    have hzero : precedingTime record row = 0 :=
      (wholeHours_of_pos _ (by omega) (by omega)).2.2.2.mpr hnear
    refine ⟨hzero, ?_, ?_, ?_, ?_⟩
    · rw [GetPrecedingIpAccess_some ext _ record row hf1 (by rw [hrows1]; exact hsel)]
    · simp only [precedingAccess, hzero]
    · simp only [hsel, Option.map_some']
    · simp only [hsel, Option.map_some', suspiciousFlag]
  · intro row hsel hnear
    have hlt : record.Unix_timestamp < row.Unix_timestamp := by
      simpa using (orderBy_head_least _ _ _ hsel).2.1
    have hzero : subsequentTime record row = 0 :=
      (wholeHours_of_pos _ (by omega) (by omega)).2.2.2.mpr hnear
    refine ⟨hzero, ?_, ?_, ?_, ?_⟩
    · rw [GetSubsequentIpAccess_some ext _ record row hf2 (by rw [hrows2]; exact hsel)]
    · simp only [subsequentAccess, hzero]
    · simp only [hsel, Option.map_some']
    · simp only [hsel, Option.map_some', suspiciousFlag]

/-- Witness of **C16**: a request half an hour after the record before it and half an
hour before the record after it gets a response with both neighbours and both flags. -/
theorem zero_hours_no_failure_witness :
    precedingTime (exRecordOf exRequestSoon 500 0 1) exRecordOrigin = 0 ∧
    subsequentTime (exRecordOf exRequestSoon 500 0 1) exRecordLater = 0 ∧
    ∃ impl' response,
      PostIpAccessRequest exExtern (exImpl [exRecordOrigin, exRecordLater] []) exRequestSoon
        = some (impl', some response, none) ∧
      response.PrecedingIpAccess
        = some (precedingAccess exExtern (exRecordOf exRequestSoon 500 0 1) exRecordOrigin) ∧
      response.TravelToCurrentGeoSuspicious = some false ∧
      response.SubsequentIpAccess
        = some (subsequentAccess exExtern (exRecordOf exRequestSoon 500 0 1) exRecordLater) ∧
      response.TravelFromCurrentGeoSuspicious = some false :=
  match zero_hours_no_failure exExtern (exImpl [exRecordOrigin, exRecordLater] [])
      exRequestSoon { Lat := 500, Lon := 0, Radius := 1 } (exRecordOf exRequestSoon 500 0 1)
      rfl rfl rfl (by decide) with
  | ⟨impl', response, hpost, hpre, hsub⟩ =>
    have hp := hpre exRecordOrigin (by decide) (by decide)
    have hs := hsub exRecordLater (by decide) (by decide)
    ⟨hp.1, hs.1, impl', response, hpost, hp.2.2.2.1, hp.2.2.2.2.trans (by decide),
      hs.2.2.2.1, hs.2.2.2.2.trans (by decide)⟩


/-! ## A query that fails after the insertion -/

/-- `RegisterIpAccessRecord` returns an error for a record whose event id is stored. -/
theorem RegisterIpAccessRecord_of_stored {F : Type} (impl : SupermanDetectorImpl F)
    (ipRecord stored : IpAccessRecord F) (hstored : stored ∈ impl.ipaccessdb.rows)
    (hdup : stored.Event_uuid = ipRecord.Event_uuid) :
    ∃ err, (RegisterIpAccessRecord impl ipRecord).2 = some err := by
  have hany : impl.ipaccessdb.rows.any
      (fun r => decide (r.Event_uuid = ipRecord.Event_uuid)) = true := by
    rw [List.any_eq_true]
    exact ⟨stored, hstored, by simp [hdup]⟩
  unfold RegisterIpAccessRecord
  simp only
  split
  · exact ⟨_, rfl⟩
  · rw [if_pos hany]
    exact ⟨_, rfl⟩

/-- `PostIpAccessRequest` when the address resolves and the insertion fails. -/
theorem PostIpAccessRequest_of_register_error {F : Type} (ext : Extern F)
    (impl : SupermanDetectorImpl F) (request : IpAccessRequest) (geo : CurrentGeo F)
    (record : IpAccessRecord F) (err : String)
    (hgeo : IpAccessRequest2CurrentGeo ext impl request = (some geo, none))
    (hrec : GenerateIpAccessRecord request (some geo) = some record)
    (hreg : (RegisterIpAccessRecord impl record).2 = some err) :
    PostIpAccessRequest ext impl request
      = some ((RegisterIpAccessRecord impl record).1, none,
          some { Code := 200,
                 Message := "Failed to register IpAccessRecord, Error:" ++ err }) := by
  unfold PostIpAccessRequest
  simp only [NewIpAccessResponse, hgeo, hrec]
  generalize RegisterIpAccessRecord impl record = out at hreg ⊢
  obtain ⟨impl1, e⟩ := out
  simp only at hreg
  subst hreg
  rfl

/-- A request whose record is in the store is rejected when it is handed in again. -/
theorem resubmission_rejected {F : Type} (ext : Extern F)
    (impl impl' : SupermanDetectorImpl F) (request : IpAccessRequest) (geo : CurrentGeo F)
    (record : IpAccessRecord F)
    (hgeo : IpAccessRequest2CurrentGeo ext impl request = (some geo, none))
    (hrec : GenerateIpAccessRecord request (some geo) = some record)
    (hgeodb : impl'.geodb = impl.geodb)
    (hmem : record ∈ impl'.ipaccessdb.rows) :
    (∀ again : IpAccessRecord F, again.Event_uuid = record.Event_uuid →
      ∃ err, (RegisterIpAccessRecord impl' again).2 = some err) ∧
    ∃ err,
      PostIpAccessRequest ext impl' request
        = some ((RegisterIpAccessRecord impl' record).1, none,
            some { Code := 200,
                   Message := "Failed to register IpAccessRecord, Error:" ++ err }) := by
  constructor
  · intro again hid
    exact RegisterIpAccessRecord_of_stored impl' again record hmem hid.symm
  · obtain ⟨err, herr⟩ := RegisterIpAccessRecord_of_stored impl' record record hmem rfl
    have hgeo' : IpAccessRequest2CurrentGeo ext impl' request = (some geo, none) := by
      unfold IpAccessRequest2CurrentGeo at hgeo ⊢
      rw [hgeodb]
      exact hgeo
    exact ⟨err, PostIpAccessRequest_of_register_error ext impl' request geo record err
      hgeo' hrec herr⟩

/-- **C17**.  When the address resolves, the insertion succeeds (the insert statement
and then `tx.Commit()` go through, so that the record is stored), and then the
preceding query, or after it the subsequent query, fails with the store error `err`,
`PostIpAccessRequest` returns no response and the error of code `200` naming the query
and `err`.  The store afterwards is the earlier rows followed by the inserted record,
so that inserting any record with its event id, and handing in the request again, is
rejected. -/
theorem query_failure_keeps_record {F : Type} (ext : Extern F)
    (impl : SupermanDetectorImpl F) (request : IpAccessRequest) (geo : CurrentGeo F)
    (record : IpAccessRecord F) (err : String)
    (hgeo : IpAccessRequest2CurrentGeo ext impl request = (some geo, none))
    (hrec : GenerateIpAccessRecord request (some geo) = some record)
    (hreg : (RegisterIpAccessRecord impl record).2 = none)
    (hcommit : impl.ipaccessdb.step.nextFault = none)
    (hfail :
      (GetPrecedingIpAccess ext (RegisterIpAccessRecord impl record).1 record).2.2 = some err ∨
      ((GetPrecedingIpAccess ext (RegisterIpAccessRecord impl record).1 record).2.2 = none ∧
        (GetSubsequentIpAccess ext
          (GetPrecedingIpAccess ext (RegisterIpAccessRecord impl record).1 record).1
          record).2.2 = some err)) :
    ∃ impl' message,
      PostIpAccessRequest ext impl request
        = some (impl', none, some { Code := 200, Message := message }) ∧
      (message = "Failed get PrecedingIpAccess, Error:" ++ err ∨
        message = "Failed get SubsequentIpAccess, Error:" ++ err) ∧
      impl'.ipaccessdb.rows = impl.ipaccessdb.rows ++ [record] ∧
      (∀ again : IpAccessRecord F, again.Event_uuid = record.Event_uuid →
        ∃ e, (RegisterIpAccessRecord impl' again).2 = some e) ∧
      ∃ e,
        PostIpAccessRequest ext impl' request
          = some ((RegisterIpAccessRecord impl' record).1, none,
              some { Code := 200,
                     Message := "Failed to register IpAccessRecord, Error:" ++ e }) := by
  have hrows1 := (RegisterIpAccessRecord_succeeded impl record hreg).1 hcommit
  have hgeodb1 := RegisterIpAccessRecord_geodb impl record
  generalize hout : RegisterIpAccessRecord impl record = out at hreg hfail hrows1 hgeodb1
  obtain ⟨impl1, e1⟩ := out
  simp only at hreg hfail hrows1 hgeodb1
  subst hreg
  have hdet1 := GetPrecedingIpAccess_detector ext impl1 record
  generalize hbefore : GetPrecedingIpAccess ext impl1 record = before at hfail hdet1
  obtain ⟨impl2, preceding, e2⟩ := before
  simp only at hfail hdet1
  have hrows2 : impl2.ipaccessdb.rows = impl.ipaccessdb.rows ++ [record] := by
    rw [hdet1]
    exact hrows1
  have hgeodb2 : impl2.geodb = impl.geodb := by
    rw [hdet1]
    exact hgeodb1
  rcases hfail with h | ⟨h1, h2⟩
  · subst h
    have hmem : record ∈ impl2.ipaccessdb.rows := by
      rw [hrows2]; simp
    obtain ⟨hagain, hpost2⟩ := resubmission_rejected ext impl impl2 request geo record hgeo
      hrec hgeodb2 hmem
    refine ⟨impl2, _, ?_, Or.inl rfl, hrows2, hagain, hpost2⟩
    unfold PostIpAccessRequest
    simp only [NewIpAccessResponse, hgeo, hrec, hout, hbefore]
  · subst h1
    have hdet2 := GetSubsequentIpAccess_detector ext impl2 record
    generalize hafter : GetSubsequentIpAccess ext impl2 record = after at h2 hdet2
    obtain ⟨impl3, subsequent, e3⟩ := after
    simp only at h2 hdet2
    subst h2
    have hrows3 : impl3.ipaccessdb.rows = impl.ipaccessdb.rows ++ [record] := by
      rw [hdet2]
      exact hrows2
    have hgeodb3 : impl3.geodb = impl.geodb := by
      rw [hdet2]
      exact hgeodb2
    have hmem : record ∈ impl3.ipaccessdb.rows := by
      rw [hrows3]; simp
    obtain ⟨hagain, hpost2⟩ := resubmission_rejected ext impl impl3 request geo record hgeo
      hrec hgeodb3 hmem
    refine ⟨impl3, _, ?_, Or.inr rfl, hrows3, hagain, hpost2⟩
    unfold PostIpAccessRequest
    simp only [NewIpAccessResponse, hgeo, hrec, hout, hbefore, hafter]

/-- Witness of **C17**: the database is closed after the committed insertion of the
request of `TestPostIpAccessRequest`, before the first query, and in a second run
before the second query; the Baltimore record stays in the store and the request is
rejected when it is handed in again. -/
theorem query_failure_keeps_record_witness :
    PostIpAccessRequest exExtern
        (exImpl [exRecordLA] [none, none, some "sql: database is closed"]) exRequest
      = some (exImpl [exRecordLA, exRecordBaltimore] [], none,
          some { Code := 200
                 Message := "Failed get PrecedingIpAccess, Error:" ++
                   "sql: database is closed" }) ∧
    PostIpAccessRequest exExtern
        (exImpl [exRecordLA] [none, none, none, some "sql: database is closed"]) exRequest
      = some (exImpl [exRecordLA, exRecordBaltimore] [], none,
          some { Code := 200
                 Message := "Failed get SubsequentIpAccess, Error:" ++
                   "sql: database is closed" }) ∧
    PostIpAccessRequest exExtern (exImpl [exRecordLA, exRecordBaltimore] []) exRequest
      = some (exImpl [exRecordLA, exRecordBaltimore] [], none,
          some { Code := 200
                 Message := "Failed to register IpAccessRecord, Error:" ++
                   uniqueConstraintFailed }) ∧
    (∃ impl' message,
      PostIpAccessRequest exExtern
          (exImpl [exRecordLA] [none, none, some "sql: database is closed"]) exRequest
        = some (impl', none, some { Code := 200, Message := message }) ∧
      impl'.ipaccessdb.rows = [exRecordLA] ++ [exRecordBaltimore] ∧
      ∃ e, (RegisterIpAccessRecord impl' exRecordBaltimore).2 = some e) ∧
    (∃ impl' message,
      PostIpAccessRequest exExtern
          (exImpl [exRecordLA] [none, none, none, some "sql: database is closed"]) exRequest
        = some (impl', none, some { Code := 200, Message := message }) ∧
      impl'.ipaccessdb.rows = [exRecordLA] ++ [exRecordBaltimore] ∧
      ∃ e, (RegisterIpAccessRecord impl' exRecordBaltimore).2 = some e) :=
  ⟨rfl, rfl, rfl,
    match query_failure_keeps_record exExtern
        (exImpl [exRecordLA] [none, none, some "sql: database is closed"]) exRequest
        { Lat := 392293, Lon := -766907, Radius := 10 } exRecordBaltimore
        "sql: database is closed" rfl rfl rfl rfl (Or.inl rfl) with
    | ⟨impl', message, hpost, _, hrows, hagain, _⟩ =>
      ⟨impl', message, hpost, hrows, hagain exRecordBaltimore rfl⟩,
    match query_failure_keeps_record exExtern
        (exImpl [exRecordLA] [none, none, none, some "sql: database is closed"]) exRequest
        { Lat := 392293, Lon := -766907, Radius := 10 } exRecordBaltimore
        "sql: database is closed" rfl rfl rfl rfl (Or.inr ⟨rfl, rfl⟩) with
    | ⟨impl', message, hpost, _, hrows, hagain, _⟩ =>
      ⟨impl', message, hpost, hrows, hagain exRecordBaltimore rfl⟩⟩

end SupermanDetector
